import Mathlib

/-!
Verification of the orbit-supabase mapping layer (`src/source.ts`).

The TypeScript source is shallowly embedded:

* JavaScript values are the inductive `Value` (with `vundefined` for
  `undefined`); JS objects are insertion-ordered association lists
  (`alGet`/`alSet` mirror property read and assignment).
* The Supabase client is a collaborator: each operation is a pure
  function of the source configuration, the inputs, and a deterministic
  backend oracle `Backend`; it returns an `Except String` result (thrown
  `Error` messages) together with the ordered trace of requests that
  were issued to the backend.  A throw before the `await` therefore
  shows up as an error paired with an empty trace.
* TS fields that may be `undefined` are `Option`; nested optional
  config records (`timestamps`, `rls`) are flattened to records of
  `Option` fields, which resolves `a?.b ?? d` identically.  Optional
  maps (`attributes`, `relationships`) are plain lists, `[]` standing
  for an absent map — every consumer treats the two alike.
-/

namespace OrbitSupabase


/-- A JavaScript value as handled by the serializer and query layer. -/
inductive Value where
  | vundefined
  | vnull
  | vbool (b : Bool)
  | vnum (n : Int)
  | vstr (s : String)
  | varr (elems : List Value)
  | vobj (fields : List (String × Value))
deriving Repr

/-- JS `typeof v === 'object'` (true for `null`, arrays and objects). -/
def jsTypeofObject : Value → Bool
  | .vnull => true
  | .varr _ => true
  | .vobj _ => true
  | _ => false

/-- JS `Array.isArray`. -/
def jsIsArray : Value → Bool
  | .varr _ => true
  | _ => false

/-- JS truthiness (the numeric model ignores `NaN`). -/
def jsTruthy : Value → Bool
  | .vundefined => false
  | .vnull => false
  | .vbool b => b
  | .vnum n => decide (n ≠ 0)
  | .vstr s => decide (s ≠ "")
  | .varr _ => true
  | .vobj _ => true

/-- Association-list read, first match (keys are unique because every
write goes through `alSet`). -/
def alGet {α : Type} : List (String × α) → String → Option α
  | [], _ => none
  | (k, v) :: rest, key => if k = key then some v else alGet rest key

/-- JS property assignment `o[k] = v`: overwrite in place, else append
(insertion order preserved). -/
def alSet {α : Type} : List (String × α) → String → α → List (String × α)
  | [], key, v => [(key, v)]
  | (k, w) :: rest, key, v =>
      if k = key then (k, v) :: rest else (k, w) :: alSet rest key v

/-- Object rest-destructuring `const {k, ...rest} = o`: drop the key,
keep the order of the remaining properties. -/
def alRemove {α : Type} : List (String × α) → String → List (String × α)
  | [], _ => []
  | (k, v) :: rest, key =>
      if k = key then alRemove rest key else (k, v) :: alRemove rest key

/-- JS property read on a row, `undefined` when the key is absent. -/
def jsGet (row : List (String × Value)) (k : String) : Value :=
  (alGet row k).getD .vundefined

/-- Elements of a JS array value.  On a truthy non-array the TS
`hasMany` branch of `deserialize` raises a TypeError when it calls
`relatedRows.map` (source line 593); this total model returns `[]`
there instead, so every statement about `deserialize` must stay out of
that region — `deserializeTypeErrors` below decides it, and theorems
hypothesise it is `false`. -/
def jsArrElems : Value → List Value
  | .varr es => es
  | _ => []

/-- JS property read on an arbitrary value (`r.id` on a non-object is
`undefined`). -/
def jsObjGet (v : Value) (k : String) : Value :=
  match v with
  | .vobj fields => jsGet fields k
  | _ => .vundefined

/-- The `?.()` / `!userId` idiom on the subject accessor: `null`,
`undefined` (accessor absent) and `""` are all rejected. -/
def jsStr? : Option String → Option String
  | none => none
  | some s => if s = "" then none else some s

/-! ## InflectionHelper (`source.ts` lines 653-712)

The ASCII case maps are given by the explicit A↔Z table: this is what
`String.prototype.toLowerCase`/`toUpperCase` compute on the `[A-Z]` /
`[a-z]` matches the two regexes feed them. -/

/-- The 26 ASCII letter pairs, uppercase first. -/
def asciiCasePairs : List (Char × Char) :=
  [('A', 'a'), ('B', 'b'), ('C', 'c'), ('D', 'd'), ('E', 'e'), ('F', 'f'),
   ('G', 'g'), ('H', 'h'), ('I', 'i'), ('J', 'j'), ('K', 'k'), ('L', 'l'),
   ('M', 'm'), ('N', 'n'), ('O', 'o'), ('P', 'p'), ('Q', 'q'), ('R', 'r'),
   ('S', 's'), ('T', 't'), ('U', 'u'), ('V', 'v'), ('W', 'w'), ('X', 'x'),
   ('Y', 'y'), ('Z', 'z')]

/-- Membership in the regex class `[A-Z]`. -/
def isAsciiUpper (c : Char) : Bool :=
  asciiCasePairs.any (fun p => p.1 = c)

/-- Membership in the regex class `[a-z]`. -/
def isAsciiLower (c : Char) : Bool :=
  asciiCasePairs.any (fun p => p.2 = c)

/-- `toLowerCase` on an `[A-Z]` character (identity elsewhere). -/
def toAsciiLower (c : Char) : Char :=
  (((asciiCasePairs.find? (fun p => p.1 = c)).map Prod.snd).getD c)

/-- `toUpperCase` on an `[a-z]` character (identity elsewhere). -/
def toAsciiUpper (c : Char) : Char :=
  (((asciiCasePairs.find? (fun p => p.2 = c)).map Prod.fst).getD c)

/-- Character-level body of `str.replace(/[A-Z]/g, l => toLower(l))`
with a `_` prepended to each match, scanning left to right. -/
def snakeAux : List Char → List Char
  | [] => []
  | c :: rest =>
      (if isAsciiUpper c then ['_', toAsciiLower c] else [c]) ++ snakeAux rest

/-- Character-level body of `str.replace(/_([a-z])/g, (m, l) =>
l.toUpperCase())`: left-to-right scan, a match consumes two characters,
a non-match emits one and rescans. -/
def camelAux : List Char → List Char
  | [] => []
  | [c] => [c]
  | c₁ :: c₂ :: rest =>
      if c₁ = '_' && isAsciiLower c₂ then toAsciiUpper c₂ :: camelAux rest
      else c₁ :: camelAux (c₂ :: rest)

/-- `InflectionHelper.toSnakeCase`. -/
def toSnakeCase (s : String) : String := ⟨snakeAux s.data⟩

/-- `InflectionHelper.toCamelCase`. -/
def toCamelCase (s : String) : String := ⟨camelAux s.data⟩

/-- JS `word.endsWith(suffix)` (computed on the character lists). -/
def strEndsWith (s suffix : String) : Bool :=
  List.isSuffixOf suffix.data s.data

/-- JS `word.slice(0, -n)` (computed on the character lists). -/
def strDropRight (s : String) (n : Nat) : String :=
  ⟨s.data.take (s.data.length - n)⟩

/-- `InflectionHelper.defaultPluralize`. -/
def defaultPluralize (word : String) : String :=
  if strEndsWith word "y" then (strDropRight word 1) ++ "ies"
  else if strEndsWith word "s" || strEndsWith word "x" || strEndsWith word "z"
      || strEndsWith word "ch" || strEndsWith word "sh" then word ++ "es"
  else word ++ "s"

/-- `InflectionHelper.defaultSingularize`. -/
def defaultSingularize (word : String) : String :=
  if strEndsWith word "ies" then (strDropRight word 3) ++ "y"
  else if strEndsWith word "es" then strDropRight word 2
  else if strEndsWith word "s" then strDropRight word 1
  else word

/-! ## Configuration (`source.ts` lines 34-92) -/

/-- A JS object / table row: `ColumnName → Value`. -/
abbrev Row := List (String × Value)

/-- Per-attribute configuration (`AttributeMap` entry). -/
structure AttributeConfig where
  column : Option String := none
  serialize : Option (Value → Value) := none
  deserialize : Option (Value → Value) := none

/-- The `'hasOne' | 'hasMany'` union. -/
inductive RelKind where
  | hasOne
  | hasMany
deriving Repr, DecidableEq

/-- Per-relationship configuration (`RelationshipMap` entry). -/
structure RelationshipConfig where
  type : RelKind
  foreignKey : Option String := none
  inverseType : Option String := none
deriving Repr

/-- Per-type configuration (`TypeConfig`).  The nested optional records
`timestamps` and `rls` are flattened to `Option` fields: `a?.b ?? d`
resolves identically.  The optional `attributes`/`relationships` maps
are plain lists, `[]` standing in for an absent map (every consumer
either iterates the map or looks a key up, so the two are
indistinguishable; JS even enters `if (config.relationships)` on an
empty object, but an empty loop produces the same result). -/
structure TypeConfig where
  tableName : Option String := none
  attributes : List (String × AttributeConfig) := []
  relationships : List (String × RelationshipConfig) := []
  timestampsCreatedAt : Option String := none
  timestampsUpdatedAt : Option String := none
  rlsEnabled : Option Bool := none
  rlsUserIdColumn : Option String := none

/-- `TypeMap`. -/
abbrev TypeMap := List (String × TypeConfig)

/-- The `caseTransform` setting. -/
inductive CaseTransform where
  | snakeCase
  | camelCase
  | noTransform
deriving Repr, DecidableEq

/-! ## Records (`@orbit/records` shapes used by the source) -/

/-- A `RecordIdentity`.  Ids are kept as JS values: the source moves
them between rows and records without inspecting them. -/
structure RecordIdentity where
  type : String
  id : Value
deriving Repr

/-- The `data` member of a record relationship: absent, `null`, a
single identity (to-one) or an array of identities (to-many). -/
inductive RelData where
  | dataAbsent
  | dataNull
  | one (ident : RecordIdentity)
  | many (idents : List RecordIdentity)
deriving Repr

/-- An `InitializedRecord` (`record.attributes ?? {}` and
`record.relationships ?? {}` make `[]` the faithful default). -/
structure InitializedRecord where
  type : String
  id : Value
  attributes : List (String × Value) := []
  relationships : List (String × RelData) := []
deriving Repr

/-- Truthiness of `rel.data` (`{…}` and even `[]` are truthy). -/
def relDataTruthy : RelData → Bool
  | .one _ => true
  | .many _ => true
  | _ => false

/-- `(rel.data as RecordIdentity).id`: reading `.id` off an array
yields `undefined`. -/
def relDataAsIdentId : RelData → Value
  | .one i => i.id
  | _ => .vundefined

/-! ## RecordSerializer (`source.ts` lines 506-647) -/

/-- `RecordSerializer.transformAttributeName`: only `snake_case` mode
transforms (`camelCase` mode is a pass-through in the source). -/
def transformAttributeName (caseTransform : CaseTransform) (orbitName : String) : String :=
  match caseTransform with
  | .snakeCase => toSnakeCase orbitName
  | _ => orbitName

/-- `RecordSerializer.findAttributeName`: first explicit
`config.column === columnName` match, else the reverse case
transform. -/
def findAttributeName (typeMap : TypeMap) (caseTransform : CaseTransform)
    (type columnName : String) : String :=
  let typeConfig := (alGet typeMap type).getD {}
  match typeConfig.attributes.find? (fun p => p.2.column = some columnName) with
  | some p => p.1
  | none =>
      match caseTransform with
      | .snakeCase => toCamelCase columnName
      | _ => columnName

/-- One iteration of the attribute loop of `RecordSerializer.serialize`
(lines 519-538): resolve the column, skip timestamp columns, apply the
custom serialize hook, write to the row. -/
def serializeAttrStep (typeConfig : TypeConfig) (caseTransform : CaseTransform)
    (row : Row) (kv : String × Value) : Row :=
  let attrConfig := alGet typeConfig.attributes kv.1
  let columnName := (attrConfig.bind (fun c => c.column)).getD
    (transformAttributeName caseTransform kv.1)
  if columnName = typeConfig.timestampsCreatedAt.getD "created_at" ∨
      columnName = typeConfig.timestampsUpdatedAt.getD "updated_at" then
    row
  else
    let serializedValue :=
      match attrConfig.bind (fun c => c.serialize) with
      | some f => f kv.2
      | none => kv.2
    alSet row columnName serializedValue

/-- One iteration of the relationship loop of
`RecordSerializer.serialize` (lines 541-549): a configured `hasOne`
with truthy `rel.data` writes the snake-cased foreign key. -/
def serializeRelStep (typeConfig : TypeConfig) (row : Row) (kv : String × RelData) : Row :=
  match alGet typeConfig.relationships kv.1 with
  | some relConfig =>
      if relConfig.type = .hasOne ∧ relDataTruthy kv.2 = true then
        let foreignKey := relConfig.foreignKey.getD (kv.1 ++ "_id")
        alSet row (toSnakeCase foreignKey) (relDataAsIdentId kv.2)
      else row
  | none => row

/-- `RecordSerializer.serialize` (lines 513-552). -/
def RecordSerializer.serialize (typeMap : TypeMap) (caseTransform : CaseTransform)
    (record : InitializedRecord) : Row :=
  let typeConfig := (alGet typeMap record.type).getD {}
  let row : Row := [("id", record.id)]
  let row := record.attributes.foldl (serializeAttrStep typeConfig caseTransform) row
  record.relationships.foldl (serializeRelStep typeConfig) row

/-- The embedded-relationship test of `RecordSerializer.deserialize`
(lines 565-568): `typeof v === 'object' && Array.isArray(v) &&
v.length > 0 && typeof v[0] === 'object'`. -/
def deserSkipValue (v : Value) : Bool :=
  jsTypeofObject v && jsIsArray v &&
    (match v with
     | .varr (e :: _) => jsTypeofObject e
     | _ => false)

/-- One iteration of the attribute loop of
`RecordSerializer.deserialize` (lines 560-582): skip `id`, the RLS
column and embedded arrays; reverse-resolve the attribute name; apply
the custom deserialize hook. -/
def deserAttrStep (typeMap : TypeMap) (caseTransform : CaseTransform) (type : String)
    (attrs : Row) (cv : String × Value) : Row :=
  let typeConfig := (alGet typeMap type).getD {}
  if cv.1 = "id" ∨ cv.1 = typeConfig.rlsUserIdColumn.getD "user_id" ∨
      deserSkipValue cv.2 = true then
    attrs
  else
    let attrName := findAttributeName typeMap caseTransform type cv.1
    let attrConfig := alGet typeConfig.attributes attrName
    let deserializedValue :=
      match attrConfig.bind (fun c => c.deserialize) with
      | some f => f cv.2
      | none => cv.2
    alSet attrs attrName deserializedValue

/-- One iteration of the relationship loop of
`RecordSerializer.deserialize` (lines 585-611), iterating the
configured relationships against the row. -/
def deserRelStep (row : Row) (rels : List (String × RelData))
    (entry : String × RelationshipConfig) : List (String × RelData) :=
  let relName := entry.1
  let relConfig := entry.2
  if relConfig.type = .hasMany ∧ jsTruthy (jsGet row relName) = true then
    let relatedRows := jsArrElems (jsGet row relName)
    alSet rels relName (.many (relatedRows.map
      (fun r => ⟨relConfig.inverseType.getD relName, jsObjGet r "id"⟩)))
  else if relConfig.type = .hasOne then
    let foreignKey := relConfig.foreignKey.getD (relName ++ "_id")
    let columnName := toSnakeCase foreignKey
    if jsTruthy (jsGet row columnName) = true then
      alSet rels relName (.one ⟨relConfig.inverseType.getD relName, jsGet row columnName⟩)
    else rels
  else rels

/-- `RecordSerializer.deserialize` (lines 554-619). -/
def RecordSerializer.deserialize (typeMap : TypeMap) (caseTransform : CaseTransform)
    (type : String) (row : Row) : InitializedRecord :=
  let typeConfig := (alGet typeMap type).getD {}
  let attributes := row.foldl (deserAttrStep typeMap caseTransform type) []
  let relationships := typeConfig.relationships.foldl (deserRelStep row) []
  { id := jsGet row "id", type := type, attributes := attributes,
    relationships := relationships }

/-- The inputs on which the TS `deserialize` throws instead of
returning: `relatedRows.map` is a TypeError exactly when a configured
`hasMany` relationship's alias key holds a truthy non-array value
(lines 589-593).  The total model above goes through `jsArrElems`,
which returns junk (`[]`) on these inputs, so a theorem about
`deserialize` must hypothesise this predicate `= false` to claim
nothing about rows on which the real program throws. -/
def deserializeTypeErrors (typeMap : TypeMap) (type : String) (row : Row) : Bool :=
  (((alGet typeMap type).getD {}).relationships).any (fun q =>
    (q.2.type = RelKind.hasMany) && jsTruthy (jsGet row q.1) &&
    !(jsIsArray (jsGet row q.1)))

/-! ## Backend collaborator model

Each Supabase builder chain is assembled lazily and hits the network
only at `await`; the embedding mirrors this by building a request value
and issuing it as a single `BackendCall`.  The backend is a
deterministic oracle from calls to `{data, error}` responses, and every
operation returns its result together with the ordered trace of calls
it issued — a throw that happens before the `await` pairs the error
with an empty trace. -/

/-- A `from(t).select(c)[.eq(k, v)…][.order…][.single()]` request. -/
structure SelectRequest where
  table : String
  selectClause : String
  filters : List (String × Value) := []
  orderBy : Option String := none
  single : Bool := false

/-- A `from(t).insert(row).select().single()` request. -/
structure InsertRequest where
  table : String
  row : Row

/-- A `from(t).update(row).eq('id', v)` request. -/
structure UpdateRequest where
  table : String
  row : Row
  idFilter : String × Value

/-- A `from(t).delete().eq('id', v)` request. -/
structure DeleteRequest where
  table : String
  idFilter : String × Value

/-- One request issued to the Supabase client. -/
inductive BackendCall where
  | select (req : SelectRequest)
  | insert (req : InsertRequest)
  | update (req : UpdateRequest)
  | delete (req : DeleteRequest)

/-- The structured `{code, message}` error Supabase reports. -/
structure ErrorInfo where
  code : String
  message : String

/-- The `data` member of a response: an array of rows, a single row
(`.single()` mode), or `null`. -/
inductive QueryData where
  | list (rows : List Row)
  | one (row : Row)
  | null

/-- A `{data, error}` response. -/
structure BackendResponse where
  data : QueryData := .null
  error : Option ErrorInfo := none

/-- The backend collaborator as a deterministic oracle. -/
abbrev Backend := BackendCall → BackendResponse

/-- `(data ?? [])` in array position; a well-formed backend answers a
multi-row select with `.list` or `.null`. -/
def rowsOf : QueryData → List Row
  | .list rows => rows
  | .one row => [row]
  | .null => []

/-- `data` in single-row position; a well-formed backend answers a
`.single()` request with `.one` (or an error). -/
def rowOf : QueryData → Row
  | .one row => row
  | .list rows => rows.headD []
  | .null => []

/-- An operation's outcome: thrown `Error` message or value, plus the
trace of backend calls issued. -/
abbrev OpResult (α : Type) := Except String α × List BackendCall

/-- Map the success value of an operation outcome. -/
def mapResult {α β : Type} (f : α → β) : OpResult α → OpResult β
  | (.ok a, tr) => (.ok (f a), tr)
  | (.error e, tr) => (.error e, tr)

/-! ## SupabaseSource (`source.ts` lines 98-500) -/

/-- The source's resolved settings.  Defaults mirror the constructor's
`??` fall-backs (lines 112-118).  `getUserId` holds what the subject
accessor currently yields (`none` models an absent accessor or a
`null`/`undefined` return). -/
structure SupabaseSource where
  getUserId : Option String := none
  autoInjectUserId : Bool := true
  userIdColumn : String := "user_id"
  typeMap : TypeMap := []
  caseTransform : CaseTransform := .snakeCase
  selectRelationships : Bool := true
  pluralizeFn : Option (String → String) := none
  singularizeFn : Option (String → String) := none

/-- `InflectionHelper.pluralize`: the caller-supplied function, else
the default heuristic. -/
def SupabaseSource.pluralize (src : SupabaseSource) (word : String) : String :=
  (src.pluralizeFn.getD defaultPluralize) word

/-- `getTableName` (lines 451-453). -/
def SupabaseSource.getTableName (src : SupabaseSource) (type : String) : String :=
  ((alGet src.typeMap type).bind (fun c => c.tableName)).getD (src.pluralize type)

/-- `getTypeConfig` (lines 455-457). -/
def SupabaseSource.getTypeConfig (src : SupabaseSource) (type : String) : TypeConfig :=
  (alGet src.typeMap type).getD {}

/-- `getRelationshipConfig` (lines 459-464). -/
def SupabaseSource.getRelationshipConfig (src : SupabaseSource)
    (type relationship : String) : Option RelationshipConfig :=
  alGet (src.getTypeConfig type).relationships relationship

/-- `shouldApplyRLS` (lines 466-469): `config.rls?.enabled ??
this.autoInjectUserId`. -/
def SupabaseSource.shouldApplyRLS (src : SupabaseSource) (type : String) : Bool :=
  ((src.getTypeConfig type).rlsEnabled).getD src.autoInjectUserId

/-- `getUserIdColumn` (lines 471-474). -/
def SupabaseSource.getUserIdColumn (src : SupabaseSource) (type : String) : String :=
  ((src.getTypeConfig type).rlsUserIdColumn).getD src.userIdColumn

/-- `buildSelectClause` (lines 476-499): eager-load selects for
`hasMany` relationships. -/
def SupabaseSource.buildSelectClause (src : SupabaseSource) (type : String) : String :=
  let config := src.getTypeConfig type
  let relationshipSelects := config.relationships.filterMap (fun p =>
    if p.2.type = .hasMany then
      some (p.1 ++ ":" ++ src.getTableName (p.2.inverseType.getD p.1) ++ "(*)")
    else none)
  if src.selectRelationships = true ∧ relationshipSelects.length > 0 then
    "*, " ++ String.intercalate ", " relationshipSelects
  else "*"

/-- The message of the error thrown when RLS needs a subject. -/
def userIdRequiredMsg : String := "User ID required for RLS-enabled tables"

/-- `findRecords` (lines 190-216).  The builder chain (select clause,
ordering) is assembled before the RLS check, but no request is issued
until the `await`; a missing subject therefore throws with an empty
trace. -/
def SupabaseSource.findRecords (src : SupabaseSource) (backend : Backend)
    (type : String) : OpResult (List InitializedRecord) :=
  let tableName := src.getTableName type
  let selectClause := src.buildSelectClause type
  let run (filters : List (String × Value)) : OpResult (List InitializedRecord) :=
    let req : SelectRequest :=
      { table := tableName, selectClause := selectClause, filters := filters,
        orderBy := some "created_at" }
    let resp := backend (.select req)
    match resp.error with
    | some e => (.error ("Supabase query error: " ++ e.message), [.select req])
    | none =>
        (.ok ((rowsOf resp.data).map
          (RecordSerializer.deserialize src.typeMap src.caseTransform type)),
         [.select req])
  if src.shouldApplyRLS type then
    match jsStr? src.getUserId with
    | none => (.error userIdRequiredMsg, [])
    | some userId => run [(src.getUserIdColumn type, .vstr userId)]
  else run []

/-- The awaited `.single()` block that `findRecord` duplicates in both
of its branches (lines 238-245 and 248-255): issue the select, map the
`PGRST116` not-found code to `null`, throw on any other error. -/
def SupabaseSource.findRecordIssue (src : SupabaseSource) (backend : Backend)
    (type : String) (req : SelectRequest) : OpResult (Option InitializedRecord) :=
  let resp := backend (.select req)
  match resp.error with
  | some e =>
      if e.code = "PGRST116" then (.ok none, [.select req])
      else (.error ("Supabase query error: " ++ e.message), [.select req])
  | none =>
      (.ok (some (RecordSerializer.deserialize src.typeMap src.caseTransform type
        (rowOf resp.data))), [.select req])

/-- `findRecord` (lines 218-256): filter by id (and by the RLS column
when enabled), `.single()`, and map the `PGRST116` not-found code to
`null` instead of throwing. -/
def SupabaseSource.findRecord (src : SupabaseSource) (backend : Backend)
    (type : String) (id : Value) : OpResult (Option InitializedRecord) :=
  let tableName := src.getTableName type
  let selectClause := src.buildSelectClause type
  if src.shouldApplyRLS type then
    match jsStr? src.getUserId with
    | none => (.error userIdRequiredMsg, [])
    | some userId =>
        src.findRecordIssue backend type
          { table := tableName, selectClause := selectClause,
            filters := [("id", id), (src.getUserIdColumn type, .vstr userId)],
            single := true }
  else
    src.findRecordIssue backend type
      { table := tableName, selectClause := selectClause,
        filters := [("id", id)], single := true }

/-- A `RecordQueryExpression` (the two supported ops plus the
rejected remainder). -/
inductive RecordQueryExpression where
  | findRecords (type : String)
  | findRecord (record : RecordIdentity)
  | otherOp (op : String)

/-- `queryExpression` (lines 174-188). -/
def SupabaseSource.queryExpression (src : SupabaseSource) (backend : Backend) :
    RecordQueryExpression → OpResult (List InitializedRecord)
  | .findRecords type => src.findRecords backend type
  | .findRecord record =>
      (match src.findRecord backend record.type record.id with
       | (.ok (some r), tr) => (.ok [r], tr)
       | (.ok none, tr) => (.ok [], tr)
       | (.error e, tr) => (.error e, tr))
  | .otherOp op => (.error ("Unsupported query operation: " ++ op), [])

/-- The sequential expression loop of `_query` (lines 136-151). -/
def SupabaseSource.queryLoop (src : SupabaseSource) (backend : Backend) :
    List RecordQueryExpression → OpResult (List InitializedRecord)
  | [] => (.ok [], [])
  | e :: rest =>
      match src.queryExpression backend e with
      | (.error err, tr) => (.error err, tr)
      | (.ok rs, tr) =>
          match SupabaseSource.queryLoop src backend rest with
          | (.error err, tr₂) => (.error err, tr ++ tr₂)
          | (.ok rs₂, tr₂) => (.ok (rs ++ rs₂), tr ++ tr₂)

/-- `_query` (lines 136-151); a single expression arrives as a
one-element list after the `Array.isArray` normalisation. -/
def SupabaseSource._query (src : SupabaseSource) (backend : Backend)
    (expressions : List RecordQueryExpression) : OpResult (List InitializedRecord) :=
  src.queryLoop backend expressions

/-- `addRecord` (lines 301-327): serialize, inject the RLS column when
RLS applies and auto-injection is on, insert, deserialize the returned
row. -/
def SupabaseSource.addRecord (src : SupabaseSource) (backend : Backend)
    (record : InitializedRecord) : OpResult InitializedRecord :=
  let tableName := src.getTableName record.type
  let row := RecordSerializer.serialize src.typeMap src.caseTransform record
  let go (finalRow : Row) : OpResult InitializedRecord :=
    let req : InsertRequest := ⟨tableName, finalRow⟩
    let resp := backend (.insert req)
    match resp.error with
    | some e => (.error ("Supabase insert error: " ++ e.message), [.insert req])
    | none =>
        (.ok (RecordSerializer.deserialize src.typeMap src.caseTransform record.type
          (rowOf resp.data)), [.insert req])
  if src.shouldApplyRLS record.type = true ∧ src.autoInjectUserId = true then
    match jsStr? src.getUserId with
    | none => (.error userIdRequiredMsg, [])
    | some userId => go (alSet row (src.getUserIdColumn record.type) (.vstr userId))
  else go row

/-- `updateRecord` (lines 329-350): `const {id, ...updateData} = row`
strips the id from the payload; it becomes the filter key. -/
def SupabaseSource.updateRecord (src : SupabaseSource) (backend : Backend)
    (record : InitializedRecord) : OpResult InitializedRecord :=
  let tableName := src.getTableName record.type
  let row := RecordSerializer.serialize src.typeMap src.caseTransform record
  let id := jsGet row "id"
  let updateData := alRemove row "id"
  let req : UpdateRequest := ⟨tableName, updateData, ("id", id)⟩
  let resp := backend (.update req)
  match resp.error with
  | some e => (.error ("Supabase update error: " ++ e.message), [.update req])
  | none =>
      (.ok (RecordSerializer.deserialize src.typeMap src.caseTransform record.type
        (rowOf resp.data)), [.update req])

/-- `removeRecord` (lines 352-365). -/
def SupabaseSource.removeRecord (src : SupabaseSource) (backend : Backend)
    (record : RecordIdentity) : OpResult Unit :=
  let tableName := src.getTableName record.type
  let req : DeleteRequest := ⟨tableName, ("id", record.id)⟩
  let resp := backend (.delete req)
  match resp.error with
  | some e => (.error ("Supabase delete error: " ++ e.message), [.delete req])
  | none => (.ok (), [.delete req])

/-- `x ?? y` on values (`null` and `undefined` both fall through). -/
def jsNullish (v fallback : Value) : Value :=
  match v with
  | .vundefined => fallback
  | .vnull => fallback
  | v => v

/-- `replaceRelatedRecord` (lines 371-415).  `hasOne`: update the
owner's snake-cased foreign-key column to `relatedRecord?.id ?? null`.
`hasMany`: update the related record's `"{owner.type}_id"` column
(silent no-op when `relatedRecord?.type` is falsy).  Unconfigured
relationship: silent no-op. -/
def SupabaseSource.replaceRelatedRecord (src : SupabaseSource) (backend : Backend)
    (record : RecordIdentity) (relationship : String)
    (relatedRecord : Option RecordIdentity) : OpResult Unit :=
  match src.getRelationshipConfig record.type relationship with
  | some relationshipConfig =>
      if relationshipConfig.type = .hasOne then
        let foreignKey := relationshipConfig.foreignKey.getD (relationship ++ "_id")
        let tableName := src.getTableName record.type
        let columnName := toSnakeCase foreignKey
        let newValue := jsNullish
          (match relatedRecord with
           | some r => r.id
           | none => .vundefined) .vnull
        let req : UpdateRequest := ⟨tableName, [(columnName, newValue)], ("id", record.id)⟩
        let resp := backend (.update req)
        match resp.error with
        | some e => (.error ("Supabase update error: " ++ e.message), [.update req])
        | none => (.ok (), [.update req])
      else
        match relatedRecord with
        | none => (.ok (), [])
        | some rr =>
            if rr.type = "" then (.ok (), [])
            else
              let inverseForeignKey := record.type ++ "_id"
              let inverseTableName := src.getTableName rr.type
              let columnName := toSnakeCase inverseForeignKey
              let req : UpdateRequest :=
                ⟨inverseTableName, [(columnName, record.id)], ("id", rr.id)⟩
              let resp := backend (.update req)
              match resp.error with
              | some e => (.error ("Supabase update error: " ++ e.message), [.update req])
              | none => (.ok (), [.update req])
  | none => (.ok (), [])

/-- The sequential loop of `replaceRelatedRecords` (lines 417-427). -/
def SupabaseSource.replaceRelatedRecordsLoop (src : SupabaseSource) (backend : Backend)
    (record : RecordIdentity) (relationship : String) :
    List RecordIdentity → OpResult Unit
  | [] => (.ok (), [])
  | r :: rest =>
      match src.replaceRelatedRecord backend record relationship (some r) with
      | (.error e, tr) => (.error e, tr)
      | (.ok _, tr) =>
          match SupabaseSource.replaceRelatedRecordsLoop src backend record relationship rest with
          | (res, tr₂) => (res, tr ++ tr₂)

/-- `replaceRelatedRecords` (lines 417-427). -/
def SupabaseSource.replaceRelatedRecords (src : SupabaseSource) (backend : Backend)
    (record : RecordIdentity) (relationship : String)
    (relatedRecords : List RecordIdentity) : OpResult Unit :=
  src.replaceRelatedRecordsLoop backend record relationship relatedRecords

/-- `addToRelatedRecords` (lines 429-435): delegates to
`replaceRelatedRecord`. -/
def SupabaseSource.addToRelatedRecords (src : SupabaseSource) (backend : Backend)
    (record : RecordIdentity) (relationship : String)
    (relatedRecord : RecordIdentity) : OpResult Unit :=
  src.replaceRelatedRecord backend record relationship (some relatedRecord)

/-- `removeFromRelatedRecords` (lines 437-445): an intentional no-op. -/
def SupabaseSource.removeFromRelatedRecords (_src : SupabaseSource) (_backend : Backend)
    (_record : RecordIdentity) (_relationship : String)
    (_relatedRecord : RecordIdentity) : OpResult Unit :=
  (.ok (), [])

/-- A `RecordOperation` (the dispatched union plus the rejected
remainder). -/
inductive RecordOperation where
  | addRecord (record : InitializedRecord)
  | updateRecord (record : InitializedRecord)
  | removeRecord (record : RecordIdentity)
  | replaceRelatedRecord (record : RecordIdentity) (relationship : String)
      (relatedRecord : Option RecordIdentity)
  | replaceRelatedRecords (record : RecordIdentity) (relationship : String)
      (relatedRecords : List RecordIdentity)
  | addToRelatedRecords (record : RecordIdentity) (relationship : String)
      (relatedRecord : RecordIdentity)
  | removeFromRelatedRecords (record : RecordIdentity) (relationship : String)
      (relatedRecord : RecordIdentity)
  | otherOp (op : String)

/-- `performOperation` (lines 262-299); relationship operations and
deletes resolve to `null` (`none`). -/
def SupabaseSource.performOperation (src : SupabaseSource) (backend : Backend) :
    RecordOperation → OpResult (Option InitializedRecord)
  | .addRecord record => mapResult some (src.addRecord backend record)
  | .updateRecord record => mapResult some (src.updateRecord backend record)
  | .removeRecord record => mapResult (fun _ => none) (src.removeRecord backend record)
  | .replaceRelatedRecord record relationship relatedRecord =>
      mapResult (fun _ => none)
        (src.replaceRelatedRecord backend record relationship relatedRecord)
  | .replaceRelatedRecords record relationship relatedRecords =>
      mapResult (fun _ => none)
        (src.replaceRelatedRecords backend record relationship relatedRecords)
  | .addToRelatedRecords record relationship relatedRecord =>
      mapResult (fun _ => none)
        (src.addToRelatedRecords backend record relationship relatedRecord)
  | .removeFromRelatedRecords record relationship relatedRecord =>
      mapResult (fun _ => none)
        (src.removeFromRelatedRecords backend record relationship relatedRecord)
  | .otherOp op => (.error ("Unsupported operation: " ++ op), [])

/-- The sequential operation loop of `_update` (lines 153-168): one
intent at a time, results collected in order, the first thrown error
aborts the remainder and surfaces to the caller. -/
def SupabaseSource.updateLoop (src : SupabaseSource) (backend : Backend) :
    List RecordOperation → OpResult (List InitializedRecord)
  | [] => (.ok [], [])
  | op :: rest =>
      match src.performOperation backend op with
      | (.error e, tr) => (.error e, tr)
      | (.ok result, tr) =>
          match SupabaseSource.updateLoop src backend rest with
          | (.error e, tr₂) => (.error e, tr ++ tr₂)
          | (.ok rs, tr₂) => (.ok (result.toList ++ rs), tr ++ tr₂)

/-- `_update` (lines 153-168); a single operation arrives as a
one-element list after the `Array.isArray` normalisation. -/
def SupabaseSource._update (src : SupabaseSource) (backend : Backend)
    (operations : List RecordOperation) : OpResult (List InitializedRecord) :=
  src.updateLoop backend operations

/-- An RLS-enabled configuration whose subject accessor yields nothing
(auto-injection left at its default `true`). -/
def srcC1w : SupabaseSource :=
  { getUserId := none, typeMap := [("post", { rlsEnabled := some true })] }

/-- A minimal record of the RLS-enabled type. -/
def recC1w : InitializedRecord := { type := "post", id := .vstr "p1" }

/-- RLS enabled per type, but auto-injection switched off, and no
subject available. -/
def srcC1x : SupabaseSource :=
  { getUserId := none, autoInjectUserId := false,
    typeMap := [("post", { rlsEnabled := some true })] }

/-- A backend that accepts the insert and echoes the row. -/
def backendC1x : Backend := fun _ =>
  { data := .one [("id", .vstr "p1"), ("title", .vstr "x")] }

/-- The record being created. -/
def recC1x : InitializedRecord :=
  { type := "post", id := .vstr "p1", attributes := [("title", .vstr "x")] }

/-- A source with access control fully disabled. -/
def srcC6 : SupabaseSource := { autoInjectUserId := false }

/-- A backend that rejects inserts with `boom` and accepts the rest. -/
def backendC6 : Backend := fun c =>
  match c with
  | .insert _ => { error := some ⟨"XX", "boom"⟩ }
  | _ => {}

/-- An intent that succeeds against `backendC6`. -/
def opGoodC6 : RecordOperation := .removeRecord ⟨"post", .vstr "a"⟩

/-- An intent that fails against `backendC6`. -/
def opBadC6 : RecordOperation := .addRecord { type := "post", id := .vstr "b" }

/-- A nonempty all-lowercase ASCII word. -/
def lowerWord (w : List Char) : Bool := !w.isEmpty && w.all isAsciiLower

/-- Words joined by single underscores. -/
def joinSnake : List (List Char) → List Char
  | [] => []
  | [w] => w
  | w :: ws => w ++ '_' :: joinSnake ws

/-- The claim's identifier grammar: lowercase ASCII words joined by
single underscores. -/
def IsSnakeIdent (s : String) : Prop :=
  ∃ ws : List (List Char), ws ≠ [] ∧ (∀ w ∈ ws, lowerWord w = true) ∧
    s.data = joinSnake ws

/-- The camelised continuation: each further word capitalised. -/
def camelCaps : List (List Char) → List Char
  | [] => []
  | [] :: ws => camelCaps ws
  | (c :: w) :: ws => toAsciiUpper c :: (w ++ camelCaps ws)

/-- A `post` type with a configured to-one `author` relationship. -/
def tmC4 : TypeMap := [("post", { relationships := [("author", { type := .hasOne })] })]

/-- A `post` whose `author` ref is cleared (`data: null`). -/
def recC4 : InitializedRecord :=
  { type := "post", id := .vstr "p1", relationships := [("author", .dataNull)] }

/-- A `post` type whose `owner` relationship overrides the foreign key
with a camelCase name. -/
def tmC5 : TypeMap :=
  [("post", { relationships := [("owner", { type := .hasOne, foreignKey := some "ownerKey" })] })]

/-- A source over `tmC5`. -/
def srcC5 : SupabaseSource := { typeMap := tmC5 }

/-- A `post` type whose `author` relationship overrides the foreign
key with `authorId`. -/
def tmC5x : TypeMap :=
  [("post", { relationships := [("author", { type := .hasOne, foreignKey := some "authorId" })] })]

/-- A `post` with a loaded `author` ref. -/
def recC5x : InitializedRecord :=
  { type := "post", id := .vstr "p1",
    relationships := [("author", .one ⟨"user", .vstr "u1"⟩)] }

/-- A `post` type with a to-many `comments` relationship. -/
def tmC10 : TypeMap := [("post", { relationships := [("comments", { type := .hasMany })] })]

/-- RLS enabled for `post`, subject `u1`, auto-injection on. -/
def srcC3 : SupabaseSource :=
  { getUserId := some "u1", typeMap := [("post", { rlsEnabled := some true })] }

/-- A record supplying a timestamp attribute and a forged access
column value (`userId` snake-cases to `user_id`). -/
def recC3 : InitializedRecord :=
  { type := "post", id := .vstr "p1",
    attributes := [("title", .vstr "x"), ("createdAt", .vstr "t"),
                   ("userId", .vstr "evil")] }

/-- RLS enabled per type but auto-injection disabled, subject
available. -/
def srcC3x : SupabaseSource :=
  { getUserId := some "u1", autoInjectUserId := false,
    typeMap := [("post", { rlsEnabled := some true })] }

/-! Round-trip (claim C2) vocabulary -/

/-- The foreign-key column the serializer resolves for a relationship
name: `toSnakeCase (config override ?? "{name}_id")`. -/
def fkColOf (tc : TypeConfig) (name : String) : String :=
  toSnakeCase ((match alGet tc.relationships name with
    | some cfg => cfg.foreignKey
    | none => none).getD (name ++ "_id"))

/-- Round-trip conditions on one attribute: its name survives the
snake→camel round trip, its column avoids `id`, the access-control
column and every written foreign-key column, and its value is not
embedded-eager-load shaped. -/
def attrOkC2 (tc : TypeConfig) (fkCols : List String) (kv : String × Value) : Bool :=
  (toCamelCase (toSnakeCase kv.1) = kv.1) &&
  !(toSnakeCase kv.1 = "id") &&
  !(toSnakeCase kv.1 = tc.rlsUserIdColumn.getD "user_id") &&
  !(deserSkipValue kv.2) &&
  fkCols.all (fun c => !(toSnakeCase kv.1 = c))

/-- Round-trip conditions on one relationship entry: a loaded to-one
ref with a configured `hasOne` kind, a truthy id, and a type matching
the configured inverse type (default: the relationship name). -/
def relOkC2 (tc : TypeConfig) (p : String × RelData) : Bool :=
  match p.2, alGet tc.relationships p.1 with
  | .one ident, some cfg =>
      (cfg.type = RelKind.hasOne) && jsTruthy ident.id &&
      (ident.type = cfg.inverseType.getD p.1)
  | _, _ => false

/-- A `post` type with a to-one `author` relationship. -/
def tmC2 : TypeMap := [("post", { relationships := [("author", { type := .hasOne })] })]

/-- A record exercising attributes and a loaded to-one ref. -/
def recC2 : InitializedRecord :=
  { type := "post", id := .vstr "p1",
    attributes := [("title", .vstr "x"), ("fullName", .vstr "y")],
    relationships := [("author", .one ⟨"author", .vstr "u1"⟩)] }

/-- A record (no to-many relationships) whose `tags` attribute holds
an array of objects. -/
def recC2x : InitializedRecord :=
  { type := "post", id := .vstr "p1", attributes := [("tags", .varr [.vobj []])] }

/-! ## Association-list toolkit -/

theorem alGet_alSet_self {α : Type} (l : List (String × α)) (k : String) (v : α) :
    alGet (alSet l k v) k = some v := by
  induction l with
  | nil => simp [alSet, alGet]
  | cons p rest ih =>
      by_cases h : p.1 = k
      · simp [alSet, alGet, h]
      · simp [alSet, alGet, h, ih]

theorem alGet_alSet_ne {α : Type} (l : List (String × α)) (k k' : String) (v : α)
    (h : k ≠ k') : alGet (alSet l k v) k' = alGet l k' := by
  induction l with
  | nil => simp [alSet, alGet, h]
  | cons p rest ih =>
      by_cases hp : p.1 = k
      · simp [alSet, alGet, hp, h]
      · simp [alSet, alGet, hp, ih]

theorem alSet_fresh {α : Type} (l : List (String × α)) (k : String) (v : α)
    (h : alGet l k = none) : alSet l k v = l ++ [(k, v)] := by
  induction l with
  | nil => simp [alSet]
  | cons p rest ih =>
      by_cases hp : p.1 = k
      · simp [alGet, hp] at h
      · simp [alGet, hp] at h
        simp [alSet, hp, ih h]

theorem alGet_append_left {α : Type} (l₁ l₂ : List (String × α)) (k : String) (v : α)
    (h : alGet l₁ k = some v) : alGet (l₁ ++ l₂) k = some v := by
  induction l₁ with
  | nil => simp [alGet] at h
  | cons p rest ih =>
      by_cases hp : p.1 = k
      · simp [alGet, hp] at h ⊢
        exact h
      · simp [alGet, hp] at h ⊢
        exact ih h

theorem alGet_append_right {α : Type} (l₁ l₂ : List (String × α)) (k : String)
    (h : alGet l₁ k = none) : alGet (l₁ ++ l₂) k = alGet l₂ k := by
  induction l₁ with
  | nil => simp
  | cons p rest ih =>
      by_cases hp : p.1 = k
      · simp [alGet, hp] at h
      · simp [alGet, hp] at h ⊢
        exact ih h

/-! ## Claim C9 — unconfigured relationship writes are silent no-ops -/

/-- C9: for every `replaceRelatedRecord` (setOne) or
`addToRelatedRecords` (addTo) call whose relationship has no entry in
the owner type's relationship configuration, the operation issues no
backend request, raises no error, and resolves to `null` — a silent
no-op.  (In this embedding a configured entry always has kind `hasOne`
or `hasMany`, so the claim's "entry of neither kind" case is vacuous.) -/
theorem claim_C9 (src : SupabaseSource) (backend : Backend) (record : RecordIdentity)
    (relationship : String) (relatedOpt : Option RecordIdentity)
    (relatedOne : RecordIdentity)
    (h : src.getRelationshipConfig record.type relationship = none) :
    src.performOperation backend
        (.replaceRelatedRecord record relationship relatedOpt) = (.ok none, []) ∧
    src.performOperation backend
        (.addToRelatedRecords record relationship relatedOne) = (.ok none, []) := by
  constructor
  · simp [SupabaseSource.performOperation, SupabaseSource.replaceRelatedRecord, h, mapResult]
  · simp [SupabaseSource.performOperation, SupabaseSource.addToRelatedRecords,
      SupabaseSource.replaceRelatedRecord, h, mapResult]

/-- Closed instantiation of `claim_C9` (empty configuration, a
relationship named `author` on a `post` owner). -/
theorem claim_C9_witness :
    ({} : SupabaseSource).getRelationshipConfig "post" "author" = none ∧
    SupabaseSource.performOperation {} (fun _ => {})
        (.replaceRelatedRecord ⟨"post", .vstr "p1"⟩ "author" none) = (.ok none, []) ∧
    SupabaseSource.performOperation {} (fun _ => {})
        (.addToRelatedRecords ⟨"post", .vstr "p1"⟩ "author" ⟨"user", .vstr "u1"⟩) =
      (.ok none, []) :=
  ⟨rfl,
   (claim_C9 {} (fun _ => {}) ⟨"post", .vstr "p1"⟩ "author" none
      ⟨"user", .vstr "u1"⟩ rfl).1,
   (claim_C9 {} (fun _ => {}) ⟨"post", .vstr "p1"⟩ "author" none
      ⟨"user", .vstr "u1"⟩ rfl).2⟩

/-! ## Claim C7 — not-found is an empty result, other errors throw -/

/-- Behaviour of the shared `.single()` block: one select is issued;
a reported `PGRST116` error yields `null`, any other reported error is
thrown with the backend's message. -/
theorem findRecordIssue_spec (src : SupabaseSource) (backend : Backend) (ty : String)
    (req : SelectRequest) :
    (src.findRecordIssue backend ty req).2 = [.select req] ∧
    ∀ e : ErrorInfo, (backend (.select req)).error = some e →
      (e.code = "PGRST116" →
        src.findRecordIssue backend ty req = (.ok none, [.select req])) ∧
      (e.code ≠ "PGRST116" →
        (src.findRecordIssue backend ty req).1 =
          .error ("Supabase query error: " ++ e.message)) := by
  cases he : (backend (.select req)).error with
  | none =>
      refine ⟨by simp [SupabaseSource.findRecordIssue, he], ?_⟩
      intro e he'
      exact Option.noConfusion he'
  | some e =>
      constructor
      · by_cases hc : e.code = "PGRST116" <;>
          simp [SupabaseSource.findRecordIssue, he, hc]
      · intro e' he'
        cases he'
        constructor
        · intro hc
          simp [SupabaseSource.findRecordIssue, he, hc]
        · intro hc
          simp [SupabaseSource.findRecordIssue, he, hc]

/-- C7: whenever the subject check allows `findRecord` to proceed, it
issues exactly one single-row select; if the backend reports the
not-found code `PGRST116`, the operation returns an empty result (and
the surrounding `queryExpression` returns `[]`) instead of throwing,
while any other backend-reported error is thrown with the backend's
message. -/
theorem claim_C7 (src : SupabaseSource) (backend : Backend) (ty : String) (idv : Value)
    (hsubj : src.shouldApplyRLS ty = true → jsStr? src.getUserId ≠ none) :
    ∃ req : SelectRequest, req.single = true ∧
      (src.findRecord backend ty idv).2 = [.select req] ∧
      ∀ e : ErrorInfo, (backend (.select req)).error = some e →
        (e.code = "PGRST116" →
          src.findRecord backend ty idv = (.ok none, [.select req]) ∧
          src.queryExpression backend (.findRecord ⟨ty, idv⟩) = (.ok [], [.select req])) ∧
        (e.code ≠ "PGRST116" →
          (src.findRecord backend ty idv).1 =
            .error ("Supabase query error: " ++ e.message)) := by
  by_cases hr : src.shouldApplyRLS ty = true
  · obtain ⟨u, hu⟩ := Option.ne_none_iff_exists'.mp (hsubj hr)
    have hexp : src.findRecord backend ty idv =
        src.findRecordIssue backend ty
          { table := src.getTableName ty, selectClause := src.buildSelectClause ty,
            filters := [("id", idv), (src.getUserIdColumn ty, .vstr u)],
            single := true } := by
      simp [SupabaseSource.findRecord, hr, hu]
    obtain ⟨htr, himp⟩ := findRecordIssue_spec src backend ty
      { table := src.getTableName ty, selectClause := src.buildSelectClause ty,
        filters := [("id", idv), (src.getUserIdColumn ty, .vstr u)],
        single := true }
    refine ⟨_, rfl, by rw [hexp]; exact htr, ?_⟩
    intro e he
    obtain ⟨h1, h2⟩ := himp e he
    refine ⟨?_, ?_⟩
    · intro hc
      have hfr := hexp.trans (h1 hc)
      exact ⟨hfr, by simp [SupabaseSource.queryExpression, hfr]⟩
    · intro hc
      rw [hexp]
      exact h2 hc
  · have hexp : src.findRecord backend ty idv =
        src.findRecordIssue backend ty
          { table := src.getTableName ty, selectClause := src.buildSelectClause ty,
            filters := [("id", idv)], single := true } := by
      simp [SupabaseSource.findRecord, hr]
    obtain ⟨htr, himp⟩ := findRecordIssue_spec src backend ty
      { table := src.getTableName ty, selectClause := src.buildSelectClause ty,
        filters := [("id", idv)], single := true }
    refine ⟨_, rfl, by rw [hexp]; exact htr, ?_⟩
    intro e he
    obtain ⟨h1, h2⟩ := himp e he
    refine ⟨?_, ?_⟩
    · intro hc
      have hfr := hexp.trans (h1 hc)
      exact ⟨hfr, by simp [SupabaseSource.queryExpression, hfr]⟩
    · intro hc
      rw [hexp]
      exact h2 hc

/-- Closed instantiation of `claim_C7`: a backend answering every call
with the `PGRST116` not-found error makes `findRecord` return `null`
without throwing. -/
theorem claim_C7_witness :
    (SupabaseSource.findRecord { autoInjectUserId := false }
      (fun _ => { error := some ⟨"PGRST116", "Not found"⟩ })
      "post" (.vstr "missing")).1 = .ok none := by
  obtain ⟨req, -, -, himp⟩ := claim_C7 { autoInjectUserId := false }
    (fun _ => { error := some ⟨"PGRST116", "Not found"⟩ })
    "post" (.vstr "missing") (by decide)
  exact congrArg Prod.fst ((himp ⟨"PGRST116", "Not found"⟩ rfl).1 rfl).1

/-! ## Claim C1 — missing subject fails closed (amended) -/

/-- C1 (amended): for an access-controlled type with no resolvable
subject, `findRecords` and `findRecord` throw the missing-subject error
before any backend call is issued; `addRecord` does so too provided
`autoInjectUserId` is enabled (the default).  The original claim also
asserted this for `addRecord` with auto-injection disabled, which the
code does not do (see the counterexample). -/
theorem claim_C1 (src : SupabaseSource) (backend : Backend) (ty : String)
    (idv : Value) (record : InitializedRecord)
    (hrls : src.shouldApplyRLS ty = true) (hsub : jsStr? src.getUserId = none)
    (hty : record.type = ty) :
    src.findRecords backend ty = (.error userIdRequiredMsg, []) ∧
    src.findRecord backend ty idv = (.error userIdRequiredMsg, []) ∧
    (src.autoInjectUserId = true →
      src.addRecord backend record = (.error userIdRequiredMsg, [])) := by
  subst hty
  refine ⟨?_, ?_, ?_⟩
  · simp [SupabaseSource.findRecords, hrls, hsub]
  · simp [SupabaseSource.findRecord, hrls, hsub]
  · intro hinj
    simp [SupabaseSource.addRecord, hrls, hsub, hinj]

/-- Closed instantiation of `claim_C1`: all three operations throw with
an empty call trace. -/
theorem claim_C1_witness :
    srcC1w.shouldApplyRLS "post" = true ∧ jsStr? srcC1w.getUserId = none ∧
    srcC1w.autoInjectUserId = true ∧
    srcC1w.findRecords (fun _ => {}) "post" = (.error userIdRequiredMsg, []) ∧
    srcC1w.findRecord (fun _ => {}) "post" (.vstr "p1") = (.error userIdRequiredMsg, []) ∧
    srcC1w.addRecord (fun _ => {}) recC1w = (.error userIdRequiredMsg, []) := by
  refine ⟨rfl, rfl, rfl, ?_⟩
  obtain ⟨h1, h2, h3⟩ := claim_C1 srcC1w (fun _ => {}) "post" (.vstr "p1") recC1w rfl rfl rfl
  exact ⟨h1, h2, h3 rfl⟩

/-- Counterexample to C1 as stated: with RLS enabled for `post` and no
resolvable subject, `addRecord` raises no missing-subject error — the
insert reaches the backend (because `autoInjectUserId` is `false`, the
guard `shouldApplyRLS && autoInjectUserId` is skipped). -/
theorem claim_C1_counterexample :
    srcC1x.shouldApplyRLS "post" = true ∧
    jsStr? srcC1x.getUserId = none ∧
    srcC1x.addRecord backendC1x recC1x =
      (.ok recC1x, [.insert ⟨"posts", [("id", .vstr "p1"), ("title", .vstr "x")]⟩]) :=
  ⟨rfl, rfl, rfl⟩

/-! ## Claim C6 — batch semantics (amended: no failing index) -/

/-- C6 (amended): a batch of intents executes sequentially in input
order; when an intent fails, the earlier intents' backend calls have
all been issued (committed), none of the remaining intents execute, and
the error surfaced to the caller is the failing intent's own thrown
error.  The original claim's assertion that the error carries the index
of the failing intent is false — the error is raised verbatim with no
index attached (see the counterexample). -/
theorem claim_C6 (src : SupabaseSource) (backend : Backend)
    (ops1 : List RecordOperation) (op : RecordOperation) (ops2 : List RecordOperation)
    (e : String)
    (hok : ∀ o ∈ ops1, ∃ v, (src.performOperation backend o).1 = .ok v)
    (hfail : (src.performOperation backend op).1 = .error e) :
    (src._update backend (ops1 ++ op :: ops2)).1 = .error e ∧
    (src._update backend (ops1 ++ op :: ops2)).2 =
      (ops1.map (fun o => (src.performOperation backend o).2)).flatten ++
        (src.performOperation backend op).2 := by
  induction ops1 with
  | nil =>
      cases hp : src.performOperation backend op with
      | mk fst tr =>
          rw [hp] at hfail
          simp only at hfail
          subst hfail
          constructor
          · simp [SupabaseSource._update, SupabaseSource.updateLoop, hp]
          · simp [SupabaseSource._update, SupabaseSource.updateLoop, hp]
  | cons o rest ih =>
      obtain ⟨v, hv⟩ := hok o (by simp)
      have hok' : ∀ o' ∈ rest, ∃ w, (src.performOperation backend o').1 = .ok w :=
        fun o' ho' => hok o' (by simp [ho'])
      obtain ⟨ih1, ih2⟩ := ih hok'
      cases hq : src.performOperation backend o with
      | mk fst tr =>
          rw [hq] at hv
          simp only at hv
          subst hv
          cases hrec : SupabaseSource.updateLoop src backend (rest ++ op :: ops2) with
          | mk rfst rtr =>
              have hrec' : src._update backend (rest ++ op :: ops2) = (rfst, rtr) := hrec
              rw [hrec'] at ih1 ih2
              simp only at ih1 ih2
              subst ih1
              constructor
              · simp [SupabaseSource._update, SupabaseSource.updateLoop, hq, hrec]
              · simp [SupabaseSource._update, SupabaseSource.updateLoop, hq, hrec, ih2]

/-- Closed instantiation of `claim_C6` on a three-intent batch whose
middle intent fails. -/
theorem claim_C6_witness :
    (∀ o ∈ [opGoodC6], ∃ v, (srcC6.performOperation backendC6 o).1 = .ok v) ∧
    (srcC6.performOperation backendC6 opBadC6).1 = .error "Supabase insert error: boom" ∧
    (srcC6._update backendC6 ([opGoodC6] ++ opBadC6 :: [opGoodC6])).1 =
      .error "Supabase insert error: boom" ∧
    (srcC6._update backendC6 ([opGoodC6] ++ opBadC6 :: [opGoodC6])).2 =
      ([opGoodC6].map (fun o => (srcC6.performOperation backendC6 o).2)).flatten ++
        (srcC6.performOperation backendC6 opBadC6).2 := by
  have hok : ∀ o ∈ [opGoodC6], ∃ v, (srcC6.performOperation backendC6 o).1 = .ok v := by
    intro o ho
    simp only [List.mem_singleton] at ho
    subst ho
    exact ⟨none, rfl⟩
  obtain ⟨h1, h2⟩ := claim_C6 srcC6 backendC6 [opGoodC6] opBadC6 [opGoodC6]
    "Supabase insert error: boom" hok rfl
  exact ⟨hok, rfl, h1, h2⟩

/-- Counterexample to the index part of C6 as stated: the same failing
intent, placed at index 0 of one batch and at index 1 of another,
surfaces the identical error value — the raised error therefore cannot
carry the index of the failing intent. -/
theorem claim_C6_counterexample :
    (srcC6._update backendC6 [opBadC6]).1 = .error "Supabase insert error: boom" ∧
    (srcC6._update backendC6 [opGoodC6, opBadC6]).1 =
      .error "Supabase insert error: boom" ∧
    (srcC6._update backendC6 [opBadC6]).1 =
      (srcC6._update backendC6 [opGoodC6, opBadC6]).1 :=
  ⟨rfl, rfl, rfl⟩

/-! ## Claim C8 — case-conversion round-trip -/


/-- An `[A-Z]` character is one of the 26 table entries. -/
theorem upper_char_cases (c : Char) (h : isAsciiUpper c = true) :
    c ∈ asciiCasePairs.map Prod.fst := by
  unfold isAsciiUpper at h
  obtain ⟨p, hp, hpc⟩ := List.any_eq_true.mp h
  rw [decide_eq_true_iff] at hpc
  exact hpc ▸ List.mem_map_of_mem Prod.fst hp

/-- An `[a-z]` character is one of the 26 table entries. -/
theorem lower_char_cases (c : Char) (h : isAsciiLower c = true) :
    c ∈ asciiCasePairs.map Prod.snd := by
  unfold isAsciiLower at h
  obtain ⟨p, hp, hpc⟩ := List.any_eq_true.mp h
  rw [decide_eq_true_iff] at hpc
  exact hpc ▸ List.mem_map_of_mem Prod.snd hp

/-- Facts about lowering an `[A-Z]` character. -/
theorem upper_lower_facts (c : Char) (h : isAsciiUpper c = true) :
    isAsciiLower (toAsciiLower c) = true ∧ toAsciiUpper (toAsciiLower c) = c ∧
    toAsciiLower c ≠ '_' ∧ c ≠ '_' := by
  have hc := upper_char_cases c h
  fin_cases hc <;> exact ⟨rfl, rfl, by decide, by decide⟩

/-- Facts about an `[a-z]` character. -/
theorem lower_facts (c : Char) (h : isAsciiLower c = true) :
    toAsciiUpper c ≠ '_' ∧ c ≠ '_' := by
  have hc := lower_char_cases c h
  fin_cases hc <;> exact ⟨by decide, by decide⟩

/-- The camel scan emits any non-underscore head unchanged. -/
theorem camelAux_cons (c : Char) (l : List Char) (h : c ≠ '_') :
    camelAux (c :: l) = c :: camelAux l := by
  cases l with
  | nil => rfl
  | cons c₂ rest => simp [camelAux, h]

/-- The camel scan consumes `_x` for lowercase `x`. -/
theorem camelAux_underscore (c : Char) (l : List Char) (h : isAsciiLower c = true) :
    camelAux ('_' :: c :: l) = toAsciiUpper c :: camelAux l := by
  simp [camelAux, h]

/-- The camel scan passes over an underscore-free block. -/
theorem camelAux_append (w l : List Char) (h : ∀ c ∈ w, c ≠ '_') :
    camelAux (w ++ l) = w ++ camelAux l := by
  induction w with
  | nil => rfl
  | cons c w' ih =>
      rw [List.cons_append, camelAux_cons c (w' ++ l) (h c (by simp)),
        ih (fun c' hc' => h c' (by simp [hc']))]
      rfl

/-- The camel scan is the identity on underscore-free input. -/
theorem camelAux_id (l : List Char) (h : ∀ c ∈ l, c ≠ '_') : camelAux l = l := by
  have := camelAux_append l [] h
  simpa [camelAux] using this

/-- Members of a lower word are `[a-z]`. -/
theorem lowerWord_mem (w : List Char) (hw : lowerWord w = true) :
    ∀ c ∈ w, isAsciiLower c = true := by
  have := (Bool.and_eq_true _ _).mp hw
  exact fun c hc => List.all_eq_true.mp this.2 c hc

/-- A lower word is nonempty. -/
theorem lowerWord_ne_nil (w : List Char) (hw : lowerWord w = true) : w ≠ [] := by
  intro hnil
  subst hnil
  simp [lowerWord] at hw

/-- A lower word contains no underscore. -/
theorem lowerWord_no_underscore (w : List Char) (hw : lowerWord w = true) :
    ∀ c ∈ w, c ≠ '_' :=
  fun c hc => (lower_facts c (lowerWord_mem w hw c hc)).2

/-- The camel scan on `'_' :: joined words` capitalises each word. -/
theorem camel_und_join (ws : List (List Char)) (hws : ∀ w ∈ ws, lowerWord w = true)
    (hne : ws ≠ []) : camelAux ('_' :: joinSnake ws) = camelCaps ws := by
  induction ws with
  | nil => exact absurd rfl hne
  | cons w ws' ih =>
      have hw : lowerWord w = true := hws w (by simp)
      obtain ⟨c, w', rfl⟩ : ∃ c w', w = c :: w' := by
        cases w with
        | nil => exact absurd rfl (lowerWord_ne_nil [] hw)
        | cons c w' => exact ⟨c, w', rfl⟩
      have hc : isAsciiLower c = true := lowerWord_mem _ hw c (by simp)
      have hwno : ∀ x ∈ w', x ≠ '_' :=
        fun x hx => lowerWord_no_underscore _ hw x (by simp [hx])
      cases ws' with
      | nil =>
          show camelAux ('_' :: c :: w') = camelCaps [c :: w']
          rw [camelAux_underscore c w' hc, camelAux_id w' hwno]
          simp [camelCaps]
      | cons w₂ ws'' =>
          have hws' : ∀ u ∈ w₂ :: ws'', lowerWord u = true :=
            fun u hu => hws u (by simp [hu])
          show camelAux ('_' :: joinSnake ((c :: w') :: w₂ :: ws'')) =
            camelCaps ((c :: w') :: w₂ :: ws'')
          have hjs : joinSnake ((c :: w') :: w₂ :: ws'') =
              (c :: w') ++ '_' :: joinSnake (w₂ :: ws'') := rfl
          rw [hjs]
          have : '_' :: ((c :: w') ++ '_' :: joinSnake (w₂ :: ws'')) =
              '_' :: c :: (w' ++ '_' :: joinSnake (w₂ :: ws'')) := rfl
          rw [this, camelAux_underscore c _ hc,
            camelAux_append w' ('_' :: joinSnake (w₂ :: ws'')) hwno,
            ih hws' (by simp)]
          simp [camelCaps]

/-- The camel scan on joined words: first word kept, rest capitalised. -/
theorem camelAux_join (w : List Char) (ws : List (List Char))
    (hw : lowerWord w = true) (hws : ∀ u ∈ ws, lowerWord u = true) :
    camelAux (joinSnake (w :: ws)) = w ++ camelCaps ws := by
  cases ws with
  | nil =>
      show camelAux w = w ++ camelCaps []
      rw [camelAux_id w (lowerWord_no_underscore w hw)]
      simp [camelCaps]
  | cons u ws' =>
      show camelAux (w ++ '_' :: joinSnake (u :: ws')) = w ++ camelCaps (u :: ws')
      rw [camelAux_append w _ (lowerWord_no_underscore w hw),
        camel_und_join (u :: ws') hws (by simp)]

/-- The camelised continuation contains no underscore. -/
theorem camelCaps_no_underscore (ws : List (List Char))
    (hws : ∀ w ∈ ws, lowerWord w = true) : ∀ c ∈ camelCaps ws, c ≠ '_' := by
  induction ws with
  | nil => intro c hc; simp [camelCaps] at hc
  | cons w ws' ih =>
      have hw : lowerWord w = true := hws w (by simp)
      cases w with
      | nil => exact absurd rfl (lowerWord_ne_nil [] hw)
      | cons c₀ w' =>
          intro c hc
          simp only [camelCaps, List.mem_cons, List.mem_append] at hc
          rcases hc with rfl | hc | hc
          · exact (lower_facts c₀ (lowerWord_mem _ hw c₀ (by simp))).1
          · exact lowerWord_no_underscore _ hw c (by simp [hc])
          · exact ih (fun u hu => hws u (by simp [hu])) c hc

/-- On underscore-free input, the snake conversion followed by the
camel conversion is the identity. -/
theorem snake_camel_id (l : List Char) (h : ∀ c ∈ l, c ≠ '_') :
    camelAux (snakeAux l) = l := by
  induction l with
  | nil => rfl
  | cons c rest ih =>
      have hrest : ∀ c' ∈ rest, c' ≠ '_' := fun c' hc' => h c' (by simp [hc'])
      by_cases hu : isAsciiUpper c = true
      · obtain ⟨h1, h2, h3, h4⟩ := upper_lower_facts c hu
        show camelAux ((if isAsciiUpper c then ['_', toAsciiLower c] else [c]) ++
          snakeAux rest) = c :: rest
        rw [if_pos hu]
        show camelAux ('_' :: toAsciiLower c :: snakeAux rest) = c :: rest
        rw [camelAux_underscore _ _ h1, h2, ih hrest]
      · show camelAux ((if isAsciiUpper c then ['_', toAsciiLower c] else [c]) ++
          snakeAux rest) = c :: rest
        rw [if_neg hu]
        show camelAux (c :: snakeAux rest) = c :: rest
        rw [camelAux_cons c _ (h c (by simp)), ih hrest]

/-- C8: for every identifier composed of lowercase ASCII words joined
by single underscores, `toCamelCase (toSnakeCase (toCamelCase x))`
equals `toCamelCase x`. -/
theorem claim_C8 (x : String) (h : IsSnakeIdent x) :
    toCamelCase (toSnakeCase (toCamelCase x)) = toCamelCase x := by
  obtain ⟨ws, hne, hws, hdata⟩ := h
  cases ws with
  | nil => exact absurd rfl hne
  | cons w ws' =>
      have hw : lowerWord w = true := hws w (by simp)
      have hws' : ∀ u ∈ ws', lowerWord u = true := fun u hu => hws u (by simp [hu])
      have hjoin : camelAux x.data = w ++ camelCaps ws' := by
        rw [hdata]
        exact camelAux_join w ws' hw hws'
      have hnound : ∀ c ∈ camelAux x.data, c ≠ '_' := by
        rw [hjoin]
        intro c hc
        rcases List.mem_append.mp hc with h1 | h2
        · exact lowerWord_no_underscore w hw c h1
        · exact camelCaps_no_underscore ws' hws' c h2
      show String.mk (camelAux (snakeAux (camelAux x.data))) =
        String.mk (camelAux x.data)
      exact congrArg String.mk (snake_camel_id (camelAux x.data) hnound)

/-- Closed instantiation of `claim_C8` at `foo_bar`. -/
theorem claim_C8_witness :
    IsSnakeIdent "foo_bar" ∧
    toCamelCase (toSnakeCase (toCamelCase "foo_bar")) = toCamelCase "foo_bar" := by
  have hsi : IsSnakeIdent "foo_bar" :=
    ⟨[['f', 'o', 'o'], ['b', 'a', 'r']], by simp, by decide, by decide⟩
  exact ⟨hsi, claim_C8 "foo_bar" hsi⟩

/-! ## Claims C4, C5, C10 — serializer corner cases -/


/-- The serialize relationship step ignores entries whose `data` is
not loaded (falsy). -/
theorem serializeRelStep_skip (tc : TypeConfig) (row : Row) (p : String × RelData)
    (h : relDataTruthy p.2 = false) : serializeRelStep tc row p = row := by
  unfold serializeRelStep
  cases alGet tc.relationships p.1 with
  | none => rfl
  | some cfg => simp [h]

/-- The whole relationship loop is the identity when no entry has
loaded data. -/
theorem foldl_relStep_skip (tc : TypeConfig) (rels : List (String × RelData)) (row : Row)
    (h : ∀ p ∈ rels, relDataTruthy p.2 = false) :
    rels.foldl (serializeRelStep tc) row = row := by
  induction rels with
  | nil => rfl
  | cons p rest ih =>
      rw [List.foldl_cons, serializeRelStep_skip tc row p (h p (by simp))]
      exact ih (fun q hq => h q (by simp [hq]))

/-- C4 (amended): for a record with no attributes and no loaded
relationship data, `serialize` produces just the id row — in
particular, for a configured to-one relationship whose ref is cleared
(`data: null`), the foreign-key column is omitted entirely rather than
written as `null` (writing `null` happens only through
`replaceRelatedRecord`; see the counterexample to the original
claim). -/
theorem claim_C4 (typeMap : TypeMap) (caseTransform : CaseTransform)
    (record : InitializedRecord)
    (ha : record.attributes = [])
    (hr : ∀ p ∈ record.relationships, relDataTruthy p.2 = false) :
    RecordSerializer.serialize typeMap caseTransform record = [("id", record.id)] := by
  unfold RecordSerializer.serialize
  rw [ha]
  simp only [List.foldl_nil]
  exact foldl_relStep_skip _ record.relationships _ hr

/-- Closed instantiation of `claim_C4` at the cleared `author` ref. -/
theorem claim_C4_witness :
    recC4.attributes = [] ∧
    (∀ p ∈ recC4.relationships, relDataTruthy p.2 = false) ∧
    RecordSerializer.serialize tmC4 .snakeCase recC4 = [("id", .vstr "p1")] := by
  refine ⟨rfl, by decide, ?_⟩
  exact claim_C4 tmC4 .snakeCase recC4 rfl (by decide)

/-- Counterexample to C4 as stated: the cleared to-one ref produces no
foreign-key column at all (`alGet … \"author_id\" = none`), not a `null`
value. -/
theorem claim_C4_counterexample :
    alGet ((alGet tmC4 "post").getD {}).relationships "author" =
      some { type := .hasOne } ∧
    recC4.relationships = [("author", RelData.dataNull)] ∧
    RecordSerializer.serialize tmC4 .snakeCase recC4 = [("id", .vstr "p1")] ∧
    alGet (RecordSerializer.serialize tmC4 .snakeCase recC4) "author_id" = none :=
  ⟨rfl, rfl, rfl, rfl⟩

/-- C5 (amended): serialize, deserialize and `replaceRelatedRecord`
all resolve the foreign-key column as `toSnakeCase (foreignKey ??
\"{relationship}_id\")` — the explicit override participates but is
snake-cased, not used as given (see the counterexample). -/
theorem claim_C5 (src : SupabaseSource) (backend : Backend) (ty : String) (idv : Value)
    (name : String) (cfg : RelationshipConfig) (ident target : RecordIdentity)
    (tc : TypeConfig) (row : Row)
    (htc : alGet src.typeMap ty = some tc)
    (hcfg : alGet tc.relationships name = some cfg)
    (hone : cfg.type = .hasOne) :
    RecordSerializer.serialize src.typeMap src.caseTransform
        { type := ty, id := idv, attributes := [], relationships := [(name, .one ident)] } =
      alSet [("id", idv)] (toSnakeCase (cfg.foreignKey.getD (name ++ "_id"))) ident.id ∧
    (tc.relationships = [(name, cfg)] →
      jsTruthy (jsGet row (toSnakeCase (cfg.foreignKey.getD (name ++ "_id")))) = true →
      (RecordSerializer.deserialize src.typeMap src.caseTransform ty row).relationships =
        [(name, .one ⟨cfg.inverseType.getD name,
          jsGet row (toSnakeCase (cfg.foreignKey.getD (name ++ "_id")))⟩)]) ∧
    (src.replaceRelatedRecord backend ⟨ty, idv⟩ name (some target)).2 =
      [.update ⟨src.getTableName ty,
        [(toSnakeCase (cfg.foreignKey.getD (name ++ "_id")), jsNullish target.id .vnull)],
        ("id", idv)⟩] := by
  refine ⟨?_, ?_, ?_⟩
  · unfold RecordSerializer.serialize
    simp only [List.foldl_nil, List.foldl_cons]
    rw [htc]
    simp only [Option.getD_some]
    unfold serializeRelStep
    rw [hcfg]
    simp [hone, relDataTruthy, relDataAsIdentId]
  · intro hrels htruthy
    unfold RecordSerializer.deserialize
    rw [htc]
    simp only [Option.getD_some]
    rw [hrels]
    simp only [List.foldl_cons, List.foldl_nil]
    unfold deserRelStep
    simp [hone, htruthy, alSet]
  · unfold SupabaseSource.replaceRelatedRecord
    have hrc : src.getRelationshipConfig ty name = some cfg := by
      unfold SupabaseSource.getRelationshipConfig SupabaseSource.getTypeConfig
      rw [htc]
      simpa using hcfg
    rw [hrc]
    simp only [hone, if_pos rfl]
    cases he : (backend (.update ⟨src.getTableName ty,
        [(toSnakeCase (cfg.foreignKey.getD (name ++ "_id")), jsNullish target.id .vnull)],
        ("id", idv)⟩)).error <;> simp [he]

/-- Closed instantiation of `claim_C5`: the override `ownerKey` is
used as `owner_key` at all three sites. -/
theorem claim_C5_witness :
    RecordSerializer.serialize tmC5 .snakeCase
        { type := "post", id := .vstr "p1", attributes := [],
          relationships := [("owner", .one ⟨"owner", .vstr "u1"⟩)] } =
      [("id", .vstr "p1"), ("owner_key", .vstr "u1")] ∧
    (RecordSerializer.deserialize tmC5 .snakeCase "post"
        [("id", .vstr "p1"), ("owner_key", .vstr "u1")]).relationships =
      [("owner", .one ⟨"owner", .vstr "u1"⟩)] ∧
    (srcC5.replaceRelatedRecord (fun _ => {}) ⟨"post", .vstr "p1"⟩ "owner"
        (some ⟨"owner", .vstr "u2"⟩)).2 =
      [.update ⟨"posts", [("owner_key", .vstr "u2")], ("id", .vstr "p1")⟩] := by
  obtain ⟨h1, h2, h3⟩ := claim_C5 srcC5 (fun _ => {}) "post" (.vstr "p1") "owner"
    { type := .hasOne, foreignKey := some "ownerKey" }
    ⟨"owner", .vstr "u1"⟩ ⟨"owner", .vstr "u2"⟩
    { relationships := [("owner", { type := .hasOne, foreignKey := some "ownerKey" })] }
    [("id", .vstr "p1"), ("owner_key", .vstr "u1")]
    rfl rfl rfl
  exact ⟨h1, h2 rfl rfl, h3⟩

/-- Counterexample to C5 as stated: the explicit override `authorId`
is NOT used as given — serialize writes the snake-cased `author_id`
column and nothing at `authorId`. -/
theorem claim_C5_counterexample :
    RecordSerializer.serialize tmC5x .snakeCase recC5x =
      [("id", .vstr "p1"), ("author_id", .vstr "u1")] ∧
    alGet (RecordSerializer.serialize tmC5x .snakeCase recC5x) "authorId" = none :=
  ⟨rfl, rfl⟩

/-- The deserialize attribute step skips `id`, the access-control
column and embedded arrays. -/
theorem deserAttrStep_skip (tm : TypeMap) (ct : CaseTransform) (ty : String)
    (acc : Row) (cv : String × Value)
    (h : cv.1 = "id" ∨ cv.1 = ((alGet tm ty).getD {}).rlsUserIdColumn.getD "user_id" ∨
      deserSkipValue cv.2 = true) :
    deserAttrStep tm ct ty acc cv = acc := by
  unfold deserAttrStep
  rw [if_pos h]

/-- With no per-attribute configuration, a non-skipped column is
collected under its camel-cased name with its value unchanged. -/
theorem deserAttrStep_write (tm : TypeMap) (ty : String) (acc : Row) (cv : String × Value)
    (h1 : ¬ (cv.1 = "id"))
    (h2 : ¬ (cv.1 = ((alGet tm ty).getD {}).rlsUserIdColumn.getD "user_id"))
    (h3 : deserSkipValue cv.2 = false)
    (hattrs : ((alGet tm ty).getD {}).attributes = []) :
    deserAttrStep tm .snakeCase ty acc cv = alSet acc (toCamelCase cv.1) cv.2 := by
  unfold deserAttrStep
  rw [if_neg (by simp [h1, h2, h3])]
  simp [findAttributeName, hattrs, alGet]

/-- The deserialize relationship step on a configured `hasMany` with a
truthy alias value embeds the child ids. -/
theorem deserRelStep_hasMany (row : Row) (rels : List (String × RelData))
    (name : String) (cfg : RelationshipConfig)
    (hmany : cfg.type = .hasMany) (htruthy : jsTruthy (jsGet row name) = true) :
    deserRelStep row rels (name, cfg) =
      alSet rels name (.many ((jsArrElems (jsGet row name)).map
        (fun r => ⟨cfg.inverseType.getD name, jsObjGet r "id"⟩))) := by
  unfold deserRelStep
  simp [hmany, htruthy]

/-- The deserialize relationship step on a configured `hasOne` with a
truthy foreign-key value produces a to-one ref. -/
theorem deserRelStep_hasOne (row : Row) (rels : List (String × RelData))
    (name : String) (cfg : RelationshipConfig)
    (hone : cfg.type = .hasOne)
    (htruthy : jsTruthy (jsGet row (toSnakeCase (cfg.foreignKey.getD (name ++ "_id")))) = true) :
    deserRelStep row rels (name, cfg) =
      alSet rels name (.one ⟨cfg.inverseType.getD name,
        jsGet row (toSnakeCase (cfg.foreignKey.getD (name ++ "_id")))⟩) := by
  unfold deserRelStep
  simp [hone, htruthy]

/-- C10 (amended): an empty-array value is not embedded-relationship
shaped (the skip rule needs a non-empty array whose first element is an
object), so it is collected into the record's attributes; but because
an empty array is truthy in JS, a configured to-many relationship whose
alias key holds an empty array DOES produce a relationship entry, with
an empty data list (the original claim asserted no entry is produced;
see the counterexample). -/
theorem claim_C10 (tm : TypeMap) (ty name : String) (tc : TypeConfig)
    (cfg : RelationshipConfig) (idv : Value)
    (htc : alGet tm ty = some tc)
    (hattrs : tc.attributes = [])
    (hrels : tc.relationships = [(name, cfg)])
    (hmany : cfg.type = .hasMany)
    (hname1 : name ≠ "id")
    (hname2 : name ≠ tc.rlsUserIdColumn.getD "user_id") :
    (RecordSerializer.deserialize tm .snakeCase ty
        [("id", idv), (name, .varr [])]).attributes =
      [(toCamelCase name, .varr [])] ∧
    (RecordSerializer.deserialize tm .snakeCase ty
        [("id", idv), (name, .varr [])]).relationships =
      [(name, .many [])] := by
  have hget : jsGet [("id", idv), (name, Value.varr [])] name = .varr [] := by
    have : ¬ ("id" = name) := fun h => hname1 h.symm
    simp [jsGet, alGet, this]
  constructor
  · unfold RecordSerializer.deserialize
    simp only [List.foldl_cons, List.foldl_nil]
    rw [deserAttrStep_skip tm .snakeCase ty [] ("id", idv) (by left; rfl),
      deserAttrStep_write tm ty [] (name, .varr [])
        (by exact hname1) (by rw [htc]; exact hname2) (by rfl)
        (by rw [htc]; exact hattrs)]
    rfl
  · unfold RecordSerializer.deserialize
    rw [htc]
    simp only [Option.getD_some]
    rw [hrels]
    simp only [List.foldl_cons, List.foldl_nil]
    rw [deserRelStep_hasMany _ [] name cfg hmany (by rw [hget]; rfl)]
    rw [hget]
    rfl

/-- Closed instantiation of `claim_C10` at the `comments` alias. -/
theorem claim_C10_witness :
    (RecordSerializer.deserialize tmC10 .snakeCase "post"
        [("id", .vstr "1"), ("comments", .varr [])]).attributes =
      [("comments", .varr [])] ∧
    (RecordSerializer.deserialize tmC10 .snakeCase "post"
        [("id", .vstr "1"), ("comments", .varr [])]).relationships =
      [("comments", .many [])] :=
  claim_C10 tmC10 "post" "comments"
    { relationships := [("comments", { type := .hasMany })] }
    { type := .hasMany } (.vstr "1") rfl rfl rfl rfl
    (by decide) (by decide)

/-- Counterexample to C10 as stated: the empty `comments` array
produces the relationship entry `{data: []}` (and is also collected as
an attribute). -/
theorem claim_C10_counterexample :
    (RecordSerializer.deserialize tmC10 .snakeCase "post"
        [("id", .vstr "1"), ("comments", .varr [])]).relationships =
      [("comments", RelData.many [])] ∧
    alGet (RecordSerializer.deserialize tmC10 .snakeCase "post"
        [("id", .vstr "1"), ("comments", .varr [])]).attributes "comments" =
      some (.varr []) :=
  ⟨rfl, rfl⟩

/-! ## Claim C3 — access-column injection on create (amended) -/


/-- The serialize attribute loop never writes a configured timestamp
column (the skip guard protects exactly those). -/
theorem serializeAttrStep_getVal_ts (tc : TypeConfig) (ct : CaseTransform)
    (acc : Row) (kv : String × Value) (col : String)
    (hcol : col = tc.timestampsCreatedAt.getD "created_at" ∨
      col = tc.timestampsUpdatedAt.getD "updated_at") :
    alGet (serializeAttrStep tc ct acc kv) col = alGet acc col := by
  unfold serializeAttrStep
  dsimp only
  split
  · rfl
  · rename_i hskip
    apply alGet_alSet_ne
    intro heq
    exact hskip (heq ▸ hcol)

/-- The serialize relationship step leaves every column other than its
own foreign-key column untouched. -/
theorem serializeRelStep_getVal_ne (tc : TypeConfig) (acc : Row)
    (kv : String × RelData) (col : String)
    (h : ∀ cfg, alGet tc.relationships kv.1 = some cfg →
      toSnakeCase (cfg.foreignKey.getD (kv.1 ++ "_id")) ≠ col) :
    alGet (serializeRelStep tc acc kv) col = alGet acc col := by
  unfold serializeRelStep
  cases hc : alGet tc.relationships kv.1 with
  | none => rfl
  | some cfg =>
      dsimp only
      split
      · exact alGet_alSet_ne _ _ _ _ (h cfg hc)
      · rfl

/-- A fold of steps that each preserve the lookup at `col` preserves
it too. -/
theorem foldl_getVal_eq {β : Type} (f : Row → β → Row) (l : List β) (acc : Row)
    (col : String) (h : ∀ r x, x ∈ l → alGet (f r x) col = alGet r col) :
    alGet (l.foldl f acc) col = alGet acc col := by
  induction l generalizing acc with
  | nil => rfl
  | cons x rest ih =>
      rw [List.foldl_cons, ih (f acc x) (fun r y hy => h r y (by simp [hy]))]
      exact h acc x (by simp)

/-- A serialized row holds nothing at a configured timestamp column,
provided that column is not `id` and no written foreign key collides
with it. -/
theorem serialize_getVal_ts_none (tm : TypeMap) (ct : CaseTransform)
    (record : InitializedRecord) (col : String)
    (hcol : col = ((alGet tm record.type).getD {}).timestampsCreatedAt.getD "created_at" ∨
      col = ((alGet tm record.type).getD {}).timestampsUpdatedAt.getD "updated_at")
    (hid : col ≠ "id")
    (hfk : ∀ p ∈ record.relationships, ∀ cfg,
      alGet ((alGet tm record.type).getD {}).relationships p.1 = some cfg →
      toSnakeCase (cfg.foreignKey.getD (p.1 ++ "_id")) ≠ col) :
    alGet (RecordSerializer.serialize tm ct record) col = none := by
  unfold RecordSerializer.serialize
  rw [foldl_getVal_eq _ _ _ col
    (fun r x hx => serializeRelStep_getVal_ne _ r x col (hfk x hx))]
  rw [foldl_getVal_eq _ _ _ col
    (fun r x _ => serializeAttrStep_getVal_ts _ ct r x col hcol)]
  have hne : ¬ ("id" = col) := fun h => hid h.symm
  simp [alGet, hne]

/-- C3 (amended): a create for an access-controlled type with
auto-injection enabled (the default) and subject `uid` sends exactly
one insert whose row has the access-control column set to `uid` —
overwriting any caller-supplied value for that column — and carries no
key at the configured created/updated timestamp columns (named apart
from `id`, the access column and the written foreign keys).  The
original claim also covered creates with auto-injection disabled, where
no injection happens at all (see the counterexample). -/
theorem claim_C3 (src : SupabaseSource) (backend : Backend)
    (record : InitializedRecord) (uid : String)
    (hrls : src.shouldApplyRLS record.type = true)
    (hinj : src.autoInjectUserId = true)
    (huid : jsStr? src.getUserId = some uid)
    (hcr1 : ((alGet src.typeMap record.type).getD {}).timestampsCreatedAt.getD "created_at" ≠ "id")
    (hup1 : ((alGet src.typeMap record.type).getD {}).timestampsUpdatedAt.getD "updated_at" ≠ "id")
    (hcr2 : src.getUserIdColumn record.type ≠
      ((alGet src.typeMap record.type).getD {}).timestampsCreatedAt.getD "created_at")
    (hup2 : src.getUserIdColumn record.type ≠
      ((alGet src.typeMap record.type).getD {}).timestampsUpdatedAt.getD "updated_at")
    (hfk : ∀ p ∈ record.relationships, ∀ cfg,
      alGet ((alGet src.typeMap record.type).getD {}).relationships p.1 = some cfg →
      toSnakeCase (cfg.foreignKey.getD (p.1 ++ "_id")) ≠
        ((alGet src.typeMap record.type).getD {}).timestampsCreatedAt.getD "created_at" ∧
      toSnakeCase (cfg.foreignKey.getD (p.1 ++ "_id")) ≠
        ((alGet src.typeMap record.type).getD {}).timestampsUpdatedAt.getD "updated_at") :
    (src.addRecord backend record).2 =
      [.insert ⟨src.getTableName record.type,
        alSet (RecordSerializer.serialize src.typeMap src.caseTransform record)
          (src.getUserIdColumn record.type) (.vstr uid)⟩] ∧
    alGet (alSet (RecordSerializer.serialize src.typeMap src.caseTransform record)
        (src.getUserIdColumn record.type) (.vstr uid))
      (src.getUserIdColumn record.type) = some (.vstr uid) ∧
    alGet (alSet (RecordSerializer.serialize src.typeMap src.caseTransform record)
        (src.getUserIdColumn record.type) (.vstr uid))
      (((alGet src.typeMap record.type).getD {}).timestampsCreatedAt.getD "created_at") = none ∧
    alGet (alSet (RecordSerializer.serialize src.typeMap src.caseTransform record)
        (src.getUserIdColumn record.type) (.vstr uid))
      (((alGet src.typeMap record.type).getD {}).timestampsUpdatedAt.getD "updated_at") = none := by
  refine ⟨?_, alGet_alSet_self _ _ _, ?_, ?_⟩
  · simp only [SupabaseSource.addRecord, hrls, hinj, huid, and_self, if_true]
    rcases hb : (backend (.insert ⟨src.getTableName record.type,
        alSet (RecordSerializer.serialize src.typeMap src.caseTransform record)
          (src.getUserIdColumn record.type) (.vstr uid)⟩)).error with _ | e <;>
      simp [hb]
  · rw [alGet_alSet_ne _ _ _ _ hcr2]
    exact serialize_getVal_ts_none _ _ _ _ (Or.inl rfl) hcr1
      (fun p hp cfg hcfg => (hfk p hp cfg hcfg).1)
  · rw [alGet_alSet_ne _ _ _ _ hup2]
    exact serialize_getVal_ts_none _ _ _ _ (Or.inr rfl) hup1
      (fun p hp cfg hcfg => (hfk p hp cfg hcfg).2)

/-- Closed instantiation of `claim_C3`: the caller's `createdAt` is
dropped, the forged `userId` value is overwritten with the subject. -/
theorem claim_C3_witness :
    (srcC3.addRecord (fun _ => {}) recC3).2 =
      [.insert ⟨"posts",
        [("id", .vstr "p1"), ("title", .vstr "x"), ("user_id", .vstr "u1")]⟩] ∧
    alGet ([("id", Value.vstr "p1"), ("title", Value.vstr "x"), ("user_id", Value.vstr "u1")] : Row)
      "user_id" = some (.vstr "u1") ∧
    alGet ([("id", Value.vstr "p1"), ("title", Value.vstr "x"), ("user_id", Value.vstr "u1")] : Row)
      "created_at" = none ∧
    alGet ([("id", Value.vstr "p1"), ("title", Value.vstr "x"), ("user_id", Value.vstr "u1")] : Row)
      "updated_at" = none := by
  obtain ⟨h1, h2, h3, h4⟩ := claim_C3 srcC3 (fun _ => {}) recC3 "u1"
    rfl rfl rfl (by decide) (by decide) (by decide) (by decide) (by simp [recC3])
  exact ⟨h1, h2, h3, h4⟩

/-- Counterexample to C3 as stated: with auto-injection disabled the
row sent for an access-controlled create contains no access-control
column at all, though the subject `u1` was resolvable. -/
theorem claim_C3_counterexample :
    srcC3x.shouldApplyRLS "post" = true ∧
    jsStr? srcC3x.getUserId = some "u1" ∧
    (srcC3x.addRecord backendC1x recC1x).2 =
      [.insert ⟨"posts", [("id", .vstr "p1"), ("title", .vstr "x")]⟩] ∧
    alGet ([("id", Value.vstr "p1"), ("title", Value.vstr "x")] : Row) "user_id" = none :=
  ⟨rfl, rfl, rfl, rfl⟩

/-! ## Claim C2 — serialize/deserialize round trip (amended) -/

/-- A lookup misses when every key differs. -/
theorem alGet_eq_none_of_keys_ne {α : Type} (l : List (String × α)) (col : String)
    (h : ∀ q ∈ l, q.1 ≠ col) : alGet l col = none := by
  induction l with
  | nil => rfl
  | cons q rest ih =>
      simp only [alGet]
      rw [if_neg (h q (by simp))]
      exact ih (fun q' hq' => h q' (by simp [hq']))

/-- A successful lookup exhibits a member. -/
theorem alGet_mem {α : Type} (l : List (String × α)) (k : String) (v : α)
    (h : alGet l k = some v) : (k, v) ∈ l := by
  induction l with
  | nil => simp [alGet] at h
  | cons q rest ih =>
      by_cases hq : q.1 = k
      · simp only [alGet, if_pos hq] at h
        cases h
        subst hq
        exact List.mem_cons_self q rest
      · simp only [alGet, if_neg hq] at h
        exact List.mem_cons_of_mem q (ih h)

/-- With no per-attribute configuration and snake mode, the serialize
attribute step either skips a timestamp column or writes the
snake-cased column. -/
theorem serializeAttrStep_noconfig (tc : TypeConfig) (acc : Row) (kv : String × Value)
    (h1 : tc.attributes = []) :
    serializeAttrStep tc .snakeCase acc kv =
      if toSnakeCase kv.1 = tc.timestampsCreatedAt.getD "created_at" ∨
          toSnakeCase kv.1 = tc.timestampsUpdatedAt.getD "updated_at" then acc
      else alSet acc (toSnakeCase kv.1) kv.2 := by
  unfold serializeAttrStep
  rw [h1]
  simp [alGet, transformAttributeName]

/-- Unpacking `relOkC2`. -/
theorem relOkC2_destruct (tc : TypeConfig) (p : String × RelData)
    (h : relOkC2 tc p = true) :
    ∃ ident cfg, p.2 = .one ident ∧ alGet tc.relationships p.1 = some cfg ∧
      cfg.type = .hasOne ∧ jsTruthy ident.id = true ∧
      ident.type = cfg.inverseType.getD p.1 := by
  rcases p with ⟨name, d⟩
  cases d with
  | one ident =>
      cases hc : alGet tc.relationships name with
      | none => simp [relOkC2, hc] at h
      | some cfg =>
          simp only [relOkC2, hc, Bool.and_eq_true, decide_eq_true_iff] at h
          exact ⟨ident, cfg, rfl, rfl, h.1.1, h.1.2, h.2⟩

  | dataAbsent => simp [relOkC2] at h
  | dataNull => simp [relOkC2] at h
  | many idents => cases hc : alGet tc.relationships name <;> simp [relOkC2, hc] at h

/-- A round-trip-conditioned relationship entry writes its foreign-key
column. -/
theorem serializeRelStep_write (tc : TypeConfig) (acc : Row) (p : String × RelData)
    (h : relOkC2 tc p = true) :
    serializeRelStep tc acc p = alSet acc (fkColOf tc p.1) (relDataAsIdentId p.2) := by
  obtain ⟨ident, cfg, hd, hc, hone, htr, -⟩ := relOkC2_destruct tc p h
  unfold serializeRelStep fkColOf
  rw [hc, hd]
  simp [hone, relDataTruthy]

/-- The serialize attribute loop appends the snake-cased non-timestamp
attributes, in order. -/
theorem ser_attr_fold (tc : TypeConfig) (attrs : List (String × Value)) (acc : Row)
    (h1 : tc.attributes = [])
    (hnodup : (attrs.map (fun kv => toSnakeCase kv.1)).Nodup)
    (hfresh : ∀ kv ∈ attrs, alGet acc (toSnakeCase kv.1) = none) :
    attrs.foldl (serializeAttrStep tc .snakeCase) acc =
      acc ++ (attrs.filter (fun kv =>
        !(toSnakeCase kv.1 = tc.timestampsCreatedAt.getD "created_at") &&
        !(toSnakeCase kv.1 = tc.timestampsUpdatedAt.getD "updated_at"))).map
        (fun kv => (toSnakeCase kv.1, kv.2)) := by
  induction attrs generalizing acc with
  | nil => simp
  | cons kv rest ih =>
      simp only [List.map_cons, List.nodup_cons] at hnodup
      rw [List.foldl_cons, serializeAttrStep_noconfig tc acc kv h1]
      by_cases hts : toSnakeCase kv.1 = tc.timestampsCreatedAt.getD "created_at" ∨
          toSnakeCase kv.1 = tc.timestampsUpdatedAt.getD "updated_at"
      · rw [if_pos hts]
        rw [List.filter_cons_of_neg (by rcases hts with h | h <;> simp [h])]
        exact ih acc hnodup.2 (fun kv' hkv' => hfresh kv' (by simp [hkv']))
      · push_neg at hts
        rw [if_neg (by simp [hts.1, hts.2])]
        rw [alSet_fresh acc _ _ (hfresh kv (by simp))]
        rw [List.filter_cons_of_pos (by simp [hts.1, hts.2])]
        have hne : ∀ kv' ∈ rest, toSnakeCase kv.1 ≠ toSnakeCase kv'.1 := by
          intro kv' hkv' heq
          exact hnodup.1 (heq ▸ List.mem_map_of_mem (fun kv => toSnakeCase kv.1) hkv')
        have hfresh' : ∀ kv' ∈ rest,
            alGet (acc ++ [(toSnakeCase kv.1, kv.2)]) (toSnakeCase kv'.1) = none := by
          intro kv' hkv'
          rw [alGet_append_right _ _ _ (hfresh kv' (by simp [hkv']))]
          simp [alGet, hne kv' hkv']
        rw [ih _ hnodup.2 hfresh']
        simp [List.append_assoc]

/-- The serialize relationship loop appends the foreign-key columns,
in order. -/
theorem ser_rel_fold (tc : TypeConfig) (rels : List (String × RelData)) (acc : Row)
    (hok : ∀ p ∈ rels, relOkC2 tc p = true)
    (hnodup : (rels.map (fun p => fkColOf tc p.1)).Nodup)
    (hfresh : ∀ p ∈ rels, alGet acc (fkColOf tc p.1) = none) :
    rels.foldl (serializeRelStep tc) acc =
      acc ++ rels.map (fun p => (fkColOf tc p.1, relDataAsIdentId p.2)) := by
  induction rels generalizing acc with
  | nil => simp
  | cons p rest ih =>
      simp only [List.map_cons, List.nodup_cons] at hnodup
      rw [List.foldl_cons, serializeRelStep_write tc acc p (hok p (by simp)),
        alSet_fresh acc _ _ (hfresh p (by simp))]
      have hne : ∀ p' ∈ rest, fkColOf tc p.1 ≠ fkColOf tc p'.1 := by
        intro p' hp' heq
        exact hnodup.1 (heq ▸ List.mem_map_of_mem (fun q => fkColOf tc q.1) hp')
      have hfresh' : ∀ p' ∈ rest,
          alGet (acc ++ [(fkColOf tc p.1, relDataAsIdentId p.2)]) (fkColOf tc p'.1) = none := by
        intro p' hp'
        rw [alGet_append_right _ _ _ (hfresh p' (by simp [hp']))]
        simp [alGet, hne p' hp']
      rw [ih _ (fun p' hp' => hok p' (by simp [hp'])) hnodup.2 hfresh']
      simp [List.append_assoc]

/-- Shape of a serialized row under the round-trip conditions: the id,
then the surviving attributes, then the foreign keys. -/
theorem serialize_eq_C2 (tm : TypeMap) (record : InitializedRecord)
    (h1 : ((alGet tm record.type).getD {}).attributes = [])
    (h2 : ∀ kv ∈ record.attributes,
      attrOkC2 ((alGet tm record.type).getD {})
        (record.relationships.map (fun p => fkColOf ((alGet tm record.type).getD {}) p.1)) kv = true)
    (h3 : ∀ p ∈ record.relationships, relOkC2 ((alGet tm record.type).getD {}) p = true)
    (h4 : (record.attributes.map Prod.fst).Nodup)
    (h5 : (record.relationships.map (fun p => fkColOf ((alGet tm record.type).getD {}) p.1)).Nodup)
    (h6 : ∀ p ∈ record.relationships, fkColOf ((alGet tm record.type).getD {}) p.1 ≠ "id") :
    RecordSerializer.serialize tm .snakeCase record =
      ("id", record.id) ::
        ((record.attributes.filter (fun kv =>
          !(toSnakeCase kv.1 = ((alGet tm record.type).getD {}).timestampsCreatedAt.getD "created_at") &&
          !(toSnakeCase kv.1 = ((alGet tm record.type).getD {}).timestampsUpdatedAt.getD "updated_at"))).map
          (fun kv => (toSnakeCase kv.1, kv.2)) ++
        record.relationships.map (fun p =>
          (fkColOf ((alGet tm record.type).getD {}) p.1, relDataAsIdentId p.2))) := by
  have hcamel : ∀ kv ∈ record.attributes, toCamelCase (toSnakeCase kv.1) = kv.1 := by
    intro kv hkv
    have := h2 kv hkv
    simp only [attrOkC2, Bool.and_eq_true, decide_eq_true_iff] at this
    exact this.1.1.1.1
  have hsnodup : (record.attributes.map (fun kv => toSnakeCase kv.1)).Nodup := by
    have : record.attributes.map (fun kv => toSnakeCase kv.1) =
        (record.attributes.map Prod.fst).map toSnakeCase := by
      simp [List.map_map]
    rw [this]
    refine List.Nodup.map_on ?_ h4
    intro x hx y hy hxy
    obtain ⟨kvx, hkvx, rfl⟩ := List.mem_map.mp hx
    obtain ⟨kvy, hkvy, rfl⟩ := List.mem_map.mp hy
    rw [← hcamel kvx hkvx, ← hcamel kvy hkvy, hxy]
  have hid : ∀ kv ∈ record.attributes, ¬ ("id" = toSnakeCase kv.1) := by
    intro kv hkv heq
    have := h2 kv hkv
    simp only [attrOkC2, Bool.and_eq_true, decide_eq_true_iff, Bool.not_eq_true',
      decide_eq_false_iff_not] at this
    exact this.1.1.1.2 heq.symm
  have hfresh0 : ∀ kv ∈ record.attributes,
      alGet [("id", record.id)] (toSnakeCase kv.1) = none := by
    intro kv hkv
    simp [alGet, hid kv hkv]
  have hfresh1 : ∀ p ∈ record.relationships,
      alGet ([("id", record.id)] ++
        (record.attributes.filter (fun kv =>
          !(toSnakeCase kv.1 = ((alGet tm record.type).getD {}).timestampsCreatedAt.getD "created_at") &&
          !(toSnakeCase kv.1 = ((alGet tm record.type).getD {}).timestampsUpdatedAt.getD "updated_at"))).map
          (fun kv => (toSnakeCase kv.1, kv.2)))
        (fkColOf ((alGet tm record.type).getD {}) p.1) = none := by
    intro p hp
    rw [alGet_append_right]
    · apply alGet_eq_none_of_keys_ne
      intro q hq
      obtain ⟨kv, hkv, rfl⟩ := List.mem_map.mp hq
      have hkv' : kv ∈ record.attributes := List.mem_of_mem_filter hkv
      have hok := h2 kv hkv'
      simp only [attrOkC2, Bool.and_eq_true, decide_eq_true_iff, Bool.not_eq_true',
        decide_eq_false_iff_not, List.all_eq_true] at hok
      intro heq
      exact hok.2 _ (List.mem_map_of_mem
        (fun p => fkColOf ((alGet tm record.type).getD {}) p.1) hp) heq
    · have : ¬ ("id" = fkColOf ((alGet tm record.type).getD {}) p.1) :=
        fun heq => h6 p hp heq.symm
      simp [alGet, this]
  unfold RecordSerializer.serialize
  dsimp only
  rw [ser_attr_fold _ _ _ h1 hsnodup hfresh0]
  rw [ser_rel_fold _ _ _ h3 h5 hfresh1]
  simp [List.append_assoc]

/-- The deserialize relationship step only ever writes its own
relationship name. -/
theorem deserRelStep_getVal_ne (row : Row) (acc : List (String × RelData))
    (q : String × RelationshipConfig) (n : String) (h : q.1 ≠ n) :
    alGet (deserRelStep row acc q) n = alGet acc n := by
  unfold deserRelStep
  dsimp only
  split
  · exact alGet_alSet_ne _ _ _ _ h
  · split
    · split
      · exact alGet_alSet_ne _ _ _ _ h
      · rfl
    · rfl

/-- Folding relationship configs named differently from `n` preserves
the lookup at `n`. -/
theorem deser_rel_fold_preserve (row : Row) (entries : List (String × RelationshipConfig))
    (acc : List (String × RelData)) (n : String) (h : ∀ q ∈ entries, q.1 ≠ n) :
    alGet (entries.foldl (deserRelStep row) acc) n = alGet acc n := by
  induction entries generalizing acc with
  | nil => rfl
  | cons q rest ih =>
      rw [List.foldl_cons, ih _ (fun q' hq' => h q' (by simp [hq'])),
        deserRelStep_getVal_ne row acc q n (h q (by simp))]

/-- Folding row entries whose resolved attribute names differ from `k`
preserves the lookup at `k`. -/
theorem deser_attr_fold_preserve (tm : TypeMap) (ty : String) (entries : Row)
    (acc : Row) (k : String)
    (hattrs : ((alGet tm ty).getD {}).attributes = [])
    (h : ∀ cv ∈ entries, toCamelCase cv.1 ≠ k) :
    alGet (entries.foldl (deserAttrStep tm .snakeCase ty) acc) k = alGet acc k := by
  induction entries generalizing acc with
  | nil => rfl
  | cons cv rest ih =>
      rw [List.foldl_cons, ih _ (fun cv' hcv' => h cv' (by simp [hcv']))]
      by_cases hs : cv.1 = "id" ∨ cv.1 = ((alGet tm ty).getD {}).rlsUserIdColumn.getD "user_id" ∨
          deserSkipValue cv.2 = true
      · rw [deserAttrStep_skip tm .snakeCase ty acc cv hs]
      · push_neg at hs
        rw [deserAttrStep_write tm ty acc cv hs.1 hs.2.1
          (by simpa using hs.2.2) hattrs]
        exact alGet_alSet_ne _ _ _ _ (h cv (by simp))

/-- Unpacking `attrOkC2`. -/
theorem attrOkC2_destruct (tc : TypeConfig) (fkCols : List String) (kv : String × Value)
    (h : attrOkC2 tc fkCols kv = true) :
    toCamelCase (toSnakeCase kv.1) = kv.1 ∧ ¬ (toSnakeCase kv.1 = "id") ∧
    ¬ (toSnakeCase kv.1 = tc.rlsUserIdColumn.getD "user_id") ∧
    deserSkipValue kv.2 = false ∧ ∀ c ∈ fkCols, ¬ (toSnakeCase kv.1 = c) := by
  simp only [attrOkC2, Bool.and_eq_true, decide_eq_true_iff, Bool.not_eq_true',
    decide_eq_false_iff_not, List.all_eq_true] at h
  exact ⟨h.1.1.1.1, h.1.1.1.2, h.1.1.2, h.1.2, h.2⟩

/-- The distinguished middle element of a duplicate-free list occurs
in neither side. -/
theorem nodup_middle_not_mem {α : Type} (l₁ l₂ : List α) (a : α)
    (h : (l₁ ++ a :: l₂).Nodup) : a ∉ l₁ ∧ a ∉ l₂ := by
  rw [List.nodup_middle, List.nodup_cons] at h
  exact ⟨fun hx => h.1 (List.mem_append_left _ hx),
    fun hx => h.1 (List.mem_append_right _ hx)⟩

/-- C2 (amended): under snake_case mode with no per-attribute
configuration for the record's type, `deserialize (r.type, serialize
r)` reproduces every attribute of `r` whose column is not a configured
timestamp column, and every relationship of `r` (all of which the
conditions require to be loaded to-one refs), provided the `attrOkC2` /
`relOkC2` conditions and the listed duplicate-freeness and
non-collision conditions hold, and provided the serialized row is
outside the region where the real `deserialize` throws a TypeError —
no configured `hasMany` alias key may hold a truthy non-array value,
e.g. a `hasMany` relationship named after one of the serialized
columns.  The original, unconditional claim fails already on an
attribute whose value is an array of objects (see the
counterexample). -/
theorem claim_C2 (tm : TypeMap) (record : InitializedRecord)
    (h1 : ((alGet tm record.type).getD {}).attributes = [])
    (h2 : ∀ kv ∈ record.attributes,
      attrOkC2 ((alGet tm record.type).getD {})
        (record.relationships.map (fun p => fkColOf ((alGet tm record.type).getD {}) p.1)) kv = true)
    (h3 : ∀ p ∈ record.relationships, relOkC2 ((alGet tm record.type).getD {}) p = true)
    (h4 : (record.attributes.map Prod.fst).Nodup)
    (h5 : (record.relationships.map (fun p => fkColOf ((alGet tm record.type).getD {}) p.1)).Nodup)
    (h6 : ∀ p ∈ record.relationships, fkColOf ((alGet tm record.type).getD {}) p.1 ≠ "id")
    (h7 : (((alGet tm record.type).getD {} : TypeConfig).relationships.map Prod.fst).Nodup)
    (h8 : ∀ p ∈ record.relationships, ∀ k ∈ record.attributes.map Prod.fst,
      toCamelCase (fkColOf ((alGet tm record.type).getD {}) p.1) ≠ k)
    (_h9 : deserializeTypeErrors tm record.type
      (RecordSerializer.serialize tm .snakeCase record) = false) :
    (∀ kv ∈ record.attributes,
      toSnakeCase kv.1 ≠ ((alGet tm record.type).getD {}).timestampsCreatedAt.getD "created_at" →
      toSnakeCase kv.1 ≠ ((alGet tm record.type).getD {}).timestampsUpdatedAt.getD "updated_at" →
      alGet (RecordSerializer.deserialize tm .snakeCase record.type
        (RecordSerializer.serialize tm .snakeCase record)).attributes kv.1 = some kv.2) ∧
    (∀ p ∈ record.relationships, ∀ ident, p.2 = .one ident →
      alGet (RecordSerializer.deserialize tm .snakeCase record.type
        (RecordSerializer.serialize tm .snakeCase record)).relationships p.1 =
        some (.one ident)) := by
  have hrow := serialize_eq_C2 tm record h1 h2 h3 h4 h5 h6
  constructor
  · intro kv hkv hts1 hts2
    obtain ⟨hcam, hkid, hkuid, hkskip, hkfk⟩ := attrOkC2_destruct _ _ kv (h2 kv hkv)
    obtain ⟨a1, a2, hsplit⟩ := List.append_of_mem hkv
    have hfilter : record.attributes.filter (fun kv =>
        !(toSnakeCase kv.1 = ((alGet tm record.type).getD {}).timestampsCreatedAt.getD "created_at") &&
        !(toSnakeCase kv.1 = ((alGet tm record.type).getD {}).timestampsUpdatedAt.getD "updated_at")) =
        a1.filter (fun kv =>
        !(toSnakeCase kv.1 = ((alGet tm record.type).getD {}).timestampsCreatedAt.getD "created_at") &&
        !(toSnakeCase kv.1 = ((alGet tm record.type).getD {}).timestampsUpdatedAt.getD "updated_at")) ++
        kv :: a2.filter (fun kv =>
        !(toSnakeCase kv.1 = ((alGet tm record.type).getD {}).timestampsCreatedAt.getD "created_at") &&
        !(toSnakeCase kv.1 = ((alGet tm record.type).getD {}).timestampsUpdatedAt.getD "updated_at")) := by
      rw [hsplit, List.filter_append, List.filter_cons_of_pos (by simp [hts1, hts2])]
    have hrow2 : RecordSerializer.serialize tm .snakeCase record =
        (("id", record.id) ::
          (a1.filter (fun kv =>
            !(toSnakeCase kv.1 = ((alGet tm record.type).getD {}).timestampsCreatedAt.getD "created_at") &&
            !(toSnakeCase kv.1 = ((alGet tm record.type).getD {}).timestampsUpdatedAt.getD "updated_at"))).map
            (fun kv => (toSnakeCase kv.1, kv.2))) ++
        (toSnakeCase kv.1, kv.2) ::
          ((a2.filter (fun kv =>
            !(toSnakeCase kv.1 = ((alGet tm record.type).getD {}).timestampsCreatedAt.getD "created_at") &&
            !(toSnakeCase kv.1 = ((alGet tm record.type).getD {}).timestampsUpdatedAt.getD "updated_at"))).map
            (fun kv => (toSnakeCase kv.1, kv.2)) ++
          record.relationships.map (fun p =>
            (fkColOf ((alGet tm record.type).getD {}) p.1, relDataAsIdentId p.2))) := by
      rw [hrow, hfilter]
      simp [List.append_assoc]
    have hknotin : kv.1 ∉ a1.map Prod.fst ∧ kv.1 ∉ a2.map Prod.fst := by
      apply nodup_middle_not_mem
      have : record.attributes.map Prod.fst =
          a1.map Prod.fst ++ kv.1 :: a2.map Prod.fst := by
        rw [hsplit]
        simp
      rw [← this]
      exact h4
    have hpostcam : ∀ cv ∈ (a2.filter (fun kv =>
        !(toSnakeCase kv.1 = ((alGet tm record.type).getD {}).timestampsCreatedAt.getD "created_at") &&
        !(toSnakeCase kv.1 = ((alGet tm record.type).getD {}).timestampsUpdatedAt.getD "updated_at"))).map
        (fun kv => (toSnakeCase kv.1, kv.2)) ++
        record.relationships.map (fun p =>
          (fkColOf ((alGet tm record.type).getD {}) p.1, relDataAsIdentId p.2)),
        toCamelCase cv.1 ≠ kv.1 := by
      intro cv hcv
      rcases List.mem_append.mp hcv with hcv | hcv
      · obtain ⟨kv', hkv', rfl⟩ := List.mem_map.mp hcv
        have hkv'attrs : kv' ∈ record.attributes := by
          rw [hsplit]
          exact List.mem_append_right _ (List.mem_cons_of_mem _ (List.mem_of_mem_filter hkv'))
        have hcam' := (attrOkC2_destruct _ _ kv' (h2 kv' hkv'attrs)).1
        simp only []
        rw [hcam']
        intro heq
        exact hknotin.2 (heq ▸ List.mem_map_of_mem Prod.fst (List.mem_of_mem_filter hkv'))
      · obtain ⟨p, hp, rfl⟩ := List.mem_map.mp hcv
        exact h8 p hp kv.1 (hsplit ▸ (by simp))
    unfold RecordSerializer.deserialize
    dsimp only
    rw [hrow2, List.foldl_append, List.foldl_cons]
    rw [deser_attr_fold_preserve tm record.type _ _ kv.1 h1 hpostcam]
    rw [deserAttrStep_write tm record.type _ (toSnakeCase kv.1, kv.2) hkid hkuid hkskip h1]
    simp only [hcam]
    exact alGet_alSet_self _ _ _
  · intro p hp ident hd
    obtain ⟨ident', cfg, hd', hcfg, hone, htr, hty⟩ := relOkC2_destruct _ p (h3 p hp)
    rw [hd] at hd'
    injection hd' with hident
    subst hident
    have hcolEq : fkColOf ((alGet tm record.type).getD {}) p.1 =
        toSnakeCase (cfg.foreignKey.getD (p.1 ++ "_id")) := by
      unfold fkColOf
      rw [hcfg]
    obtain ⟨r1, r2, hrsplit⟩ := List.append_of_mem hp
    have hfkrow : alGet (RecordSerializer.serialize tm .snakeCase record)
        (fkColOf ((alGet tm record.type).getD {}) p.1) = some ident.id := by
      rw [hrow]
      simp only [alGet]
      rw [if_neg (fun heq => h6 p hp heq.symm)]
      rw [alGet_append_right]
      · have hrel : record.relationships.map (fun q =>
            (fkColOf ((alGet tm record.type).getD {}) q.1, relDataAsIdentId q.2)) =
            r1.map (fun q =>
              (fkColOf ((alGet tm record.type).getD {}) q.1, relDataAsIdentId q.2)) ++
            (fkColOf ((alGet tm record.type).getD {}) p.1, relDataAsIdentId p.2) ::
            r2.map (fun q =>
              (fkColOf ((alGet tm record.type).getD {}) q.1, relDataAsIdentId q.2)) := by
          rw [hrsplit]
          simp
        rw [hrel, alGet_append_right]
        · simp [alGet, hd, relDataAsIdentId]
        · apply alGet_eq_none_of_keys_ne
          intro q hq
          obtain ⟨q', hq', rfl⟩ := List.mem_map.mp hq
          have hnm : fkColOf ((alGet tm record.type).getD {}) p.1 ∉
              r1.map (fun q => fkColOf ((alGet tm record.type).getD {}) q.1) := by
            have hsplit5 : record.relationships.map
                (fun q => fkColOf ((alGet tm record.type).getD {}) q.1) =
                r1.map (fun q => fkColOf ((alGet tm record.type).getD {}) q.1) ++
                fkColOf ((alGet tm record.type).getD {}) p.1 ::
                r2.map (fun q => fkColOf ((alGet tm record.type).getD {}) q.1) := by
              rw [hrsplit]
              simp
            exact (nodup_middle_not_mem _ _ _ (hsplit5 ▸ h5)).1
          intro heq
          exact hnm (heq ▸ List.mem_map_of_mem
            (fun q => fkColOf ((alGet tm record.type).getD {}) q.1) hq')
      · apply alGet_eq_none_of_keys_ne
        intro q hq
        obtain ⟨kv', hkv', rfl⟩ := List.mem_map.mp hq
        have hkv'attrs : kv' ∈ record.attributes := List.mem_of_mem_filter hkv'
        exact (attrOkC2_destruct _ _ kv' (h2 kv' hkv'attrs)).2.2.2.2 _
          (List.mem_map_of_mem (fun q => fkColOf ((alGet tm record.type).getD {}) q.1) hp)
    have htruthy : jsTruthy (jsGet (RecordSerializer.serialize tm .snakeCase record)
        (toSnakeCase (cfg.foreignKey.getD (p.1 ++ "_id")))) = true := by
      rw [← hcolEq]
      unfold jsGet
      rw [hfkrow]
      exact htr
    obtain ⟨c1, c2, hcsplit⟩ := List.append_of_mem (alGet_mem _ _ _ hcfg)
    have hcnames : (∀ q ∈ c1, q.1 ≠ p.1) ∧ (∀ q ∈ c2, q.1 ≠ p.1) := by
      have hsplit7 : (((alGet tm record.type).getD {} : TypeConfig).relationships.map Prod.fst) =
          c1.map Prod.fst ++ p.1 :: c2.map Prod.fst := by
        rw [hcsplit]
        simp
      have := nodup_middle_not_mem _ _ _ (hsplit7 ▸ h7)
      exact ⟨fun q hq heq => this.1 (heq ▸ List.mem_map_of_mem Prod.fst hq),
        fun q hq heq => this.2 (heq ▸ List.mem_map_of_mem Prod.fst hq)⟩
    unfold RecordSerializer.deserialize
    dsimp only
    rw [hcsplit, List.foldl_append, List.foldl_cons]
    rw [deser_rel_fold_preserve _ _ _ _ hcnames.2]
    rw [deserRelStep_hasOne _ _ p.1 cfg hone htruthy]
    have hval : jsGet (RecordSerializer.serialize tm .snakeCase record)
        (toSnakeCase (cfg.foreignKey.getD (p.1 ++ "_id"))) = ident.id := by
      rw [← hcolEq]
      unfold jsGet
      rw [hfkrow]
      rfl
    rw [hval]
    have hidrec : (⟨cfg.inverseType.getD p.1, ident.id⟩ : RecordIdentity) = ident := by
      rw [← hty]
    rw [hidrec]
    exact alGet_alSet_self _ _ _

/-- Closed instantiation of `claim_C2`: both attributes and the
to-one ref survive the round trip. -/
theorem claim_C2_witness :
    alGet (RecordSerializer.deserialize tmC2 .snakeCase "post"
      (RecordSerializer.serialize tmC2 .snakeCase recC2)).attributes "title" =
      some (.vstr "x") ∧
    alGet (RecordSerializer.deserialize tmC2 .snakeCase "post"
      (RecordSerializer.serialize tmC2 .snakeCase recC2)).attributes "fullName" =
      some (.vstr "y") ∧
    alGet (RecordSerializer.deserialize tmC2 .snakeCase "post"
      (RecordSerializer.serialize tmC2 .snakeCase recC2)).relationships "author" =
      some (.one ⟨"author", .vstr "u1"⟩) := by
  obtain ⟨hattr, hrel⟩ := claim_C2 tmC2 recC2 rfl (by decide) (by decide) (by decide)
    (by decide) (by decide) (by decide) (by decide) (by decide)
  refine ⟨?_, ?_, ?_⟩
  · exact hattr ("title", .vstr "x") (by simp [recC2]) (by decide) (by decide)
  · exact hattr ("fullName", .vstr "y") (by simp [recC2]) (by decide) (by decide)
  · exact hrel ("author", .one ⟨"author", .vstr "u1"⟩) (by simp [recC2]) _ rfl

/-- Counterexample to C2 as stated: the `tags` attribute — an array of
objects, not a timestamp column — is swallowed by the embedded-array
skip rule, so the round trip loses it entirely. -/
theorem claim_C2_counterexample :
    recC2x.relationships = [] ∧
    recC2x.attributes = [("tags", Value.varr [Value.vobj []])] ∧
    RecordSerializer.deserialize ([] : TypeMap) .snakeCase "post"
        (RecordSerializer.serialize ([] : TypeMap) .snakeCase recC2x) =
      { type := "post", id := .vstr "p1", attributes := [], relationships := [] } :=
  ⟨rfl, rfl, rfl⟩

end OrbitSupabase

